import Mathlib

/-!
Verification of `confstruct`: populating struct fields from environment variables.

A shallow embedding of `main.go` (`Populate`, `getFetcher`) and `fetchers.go`
(the seven `Fetch` methods), followed by theorems about them.

Conventions of the embedding:

* Go strings are Lean `String`s; `strings.Split` with a one-character separator and
  `strings.TrimSpace` are defined structurally on the character list.
* The process environment, the log of `os.Getenv` calls and the wall clock are an
  explicit `World` that is threaded through every `Fetch`.
* A Go function that can return an error or panic returns a `Res`.
* `strconv.ParseInt`, `strconv.ParseBool` and `time.ParseDuration` are written out
  after the Go standard library; the float conversion, `time.Parse`, `url.Parse`,
  the random generator and the floating-point product inside `time.ParseDuration`
  are parameters (`Std`), since they work on floats, layouts and URL syntax;
  `strconv.ParseFloat` is a parameter on non-empty strings.
-/

namespace Confstruct

/-! ## Errors, panics, results -/

/-- Go `error` values that can reach the caller of `Populate`. -/
inductive Error where
  /-- The error `fmt.Errorf(msg)` -/
  | errorf (msg : String)
  /-- The error `&strconv.NumError{Func: fn, Num: str, Err: strconv.ErrSyntax}` -/
  | syntaxError (fn str : String)
  /-- The error `&strconv.NumError{Func: fn, Num: str, Err: strconv.ErrRange}` -/
  | rangeError (fn str : String)
  /-- The error `time: invalid duration <orig>` -/
  | invalidDuration (orig : String)
  /-- The error `time: missing unit in duration <orig>` -/
  | missingUnit (orig : String)
  /-- The error `time: unknown unit <u> in duration <orig>` -/
  | unknownUnit (u orig : String)
  /-- an error reported by one of the parameterised library functions -/
  | lib (msg : String)
  deriving DecidableEq, Repr

deriving instance DecidableEq for Except

/-- Run-time panics of the Go program. -/
inductive Panic where
  /-- The panic `runtime error: index out of range [i] with length len` -/
  | indexOutOfRange (i len : Nat)
  /-- The panic `reflect.Set: value of type ... is not assignable to type ...` -/
  | notAssignable
  deriving DecidableEq, Repr

/-- Outcome of a Go call of type `(α, error)`: a value, an error, or a panic. -/
inductive Res (α : Type) where
  | ok (a : α)
  | err (e : Error)
  | panic (p : Panic)
  deriving DecidableEq, Repr

/-- Sequencing of Go statements: the first error or panic ends the function. -/
def Res.bind {α β : Type} (r : Res α) (k : α → Res β) : Res β :=
  match r with
  | .ok a => k a
  | .err e => .err e
  | .panic p => .panic p

/-! ## Strings -/

/-- The function `unicode.IsSpace`. -/
def isSpace (c : Char) : Bool :=
  let n := c.toNat
  n = 0x09 || n = 0x0A || n = 0x0B || n = 0x0C || n = 0x0D || n = 0x20 ||
  n = 0x85 || n = 0xA0 || n = 0x1680 || (0x2000 ≤ n && n ≤ 0x200A) ||
  n = 0x2028 || n = 0x2029 || n = 0x202F || n = 0x205F || n = 0x3000

/-- The function `strings.TrimSpace`: drop leading and trailing white space. -/
def TrimSpace (s : String) : String :=
  String.mk (((s.data.dropWhile isSpace).reverse.dropWhile isSpace).reverse)

/-- The pieces of a character list between occurrences of `sep`. -/
def splitChars (sep : Char) : List Char → List (List Char)
  | [] => [[]]
  | c :: cs =>
    if c = sep then [] :: splitChars sep cs
    else match splitChars sep cs with
      | [] => [[c]]
      | p :: ps => (c :: p) :: ps

/-- The function `strings.Split(s, sep)` for a one-character separator. -/
def Split (s : String) (sep : Char) : List String :=
  (splitChars sep s.data).map String.mk

/-- Slice indexing `xs[i]`, which panics when `i` is out of range. -/
def index (xs : List String) (i : Nat) : Res String :=
  match xs.get? i with
  | some x => .ok x
  | none => .panic (.indexOutOfRange i xs.length)

/-! ## World: environment, read log, clock -/

/-- The process state a `Fetch` can observe. -/
structure World (T : Type) where
  /-- the environment: `none` for an unset variable -/
  env : String → Option String
  /-- names passed to `os.Getenv` so far, oldest first -/
  reads : List String
  /-- successive readings of the wall clock -/
  clock : Nat → T
  /-- number of `time.Now()` calls so far -/
  tick : Nat

/-- The function `os.Getenv(name)`: the value, or `""` when the variable is unset. -/
def Getenv {T : Type} (w : World T) (name : String) : String × World T :=
  ((w.env name).getD "", { w with reads := w.reads ++ [name] })

/-- The function `time.Now()`. -/
def Now {T : Type} (w : World T) : T × World T :=
  (w.clock w.tick, { w with tick := w.tick + 1 })

/-! ## Standard-library functions -/

/-- Library functions taken as parameters: `F` is `float64`, `T` is `time.Time`,
`U` is `url.URL`. -/
structure Std (F T U : Type) where
  /-- the conversion `atof64` inside `strconv.ParseFloat(s, 64)`, for a non-empty `s` -/
  atof64 : String → Except Error F
  /-- The function `time.Parse(layout, value)` -/
  Parse : String → String → Except Error T
  /-- The function `url.Parse(rawURL)`, giving the pointed-to `url.URL` -/
  UrlParse : String → Except Error U
  /-- The expression `rand.New(rand.NewSource(seed)).Float64()` -/
  Float64 : Int → F
  /-- The method `t.UnixNano()` -/
  UnixNano : T → Int
  /-- The product `uint64(float64(f) * (float64(unit) / scale))` with `scale = 10^digits` -/
  fracNanos : (f unit digits : Nat) → Nat

/-- The call `strconv.ParseFloat(s, 64)`: no digit can be read from the empty string, which is a
syntax error; the conversion of a non-empty string is the parameter `atof64`. -/
def ParseFloat {F T U : Type} (S : Std F T U) (s : String) : Except Error F :=
  if s = "" then .error (.syntaxError "ParseFloat" s) else S.atof64 s

/-- The constant `strconv.IntSize` on a 64-bit platform. -/
def IntSize : Nat := 64

/-- Whether `c` is an ASCII decimal digit. -/
def isDigit (c : Char) : Bool := '0'.toNat ≤ c.toNat && c.toNat ≤ '9'.toNat

/-- The loop of `strconv.ParseUint(s, 10, bitSize)` over the remaining bytes, with the
accumulator `n`; `none` is `ErrSyntax`, `some none` is `ErrRange`. -/
def parseUintLoop (maxVal : Nat) : List Char → Nat → Option (Option Nat)
  | [], n => some (some n)
  | c :: cs, n =>
    if isDigit c then
      let d := c.toNat - '0'.toNat
      if n ≥ (2 ^ 64 - 1) / 10 + 1 then some none
      else
        let n10 := n * 10
        let n1 := (n10 + d) % 2 ^ 64
        if n1 < n10 ∨ n1 > maxVal then some none
        else parseUintLoop maxVal cs n1
    else none

/-- The function `strconv.ParseInt(s, 10, 0)`. -/
def ParseInt (s : String) : Except Error Int :=
  match s.data with
  | [] => .error (.syntaxError "ParseInt" s)
  | c :: cs =>
    let neg := c = '-'
    let digits := if c = '+' ∨ c = '-' then cs else c :: cs
    if digits = [] then .error (.syntaxError "ParseInt" s)
    else
      let cutoff := 2 ^ (IntSize - 1)
      match parseUintLoop (2 ^ IntSize - 1) digits 0 with
      | none => .error (.syntaxError "ParseInt" s)
      | some r =>
        let un := r.getD (2 ^ IntSize - 1)
        if ¬ neg ∧ un ≥ cutoff then .error (.rangeError "ParseInt" s)
        else if neg ∧ un > cutoff then .error (.rangeError "ParseInt" s)
        else .ok (if neg then - (un : Int) else (un : Int))

/-- The function `strconv.ParseBool(str)`. -/
def ParseBool (str : String) : Except Error Bool :=
  if str = "1" ∨ str = "t" ∨ str = "T" ∨ str = "true" ∨ str = "TRUE" ∨ str = "True" then
    .ok true
  else if str = "0" ∨ str = "f" ∨ str = "F" ∨ str = "false" ∨ str = "FALSE" ∨
      str = "False" then
    .ok false
  else .error (.syntaxError "ParseBool" str)

/-- The function `leadingInt` of package `time`: the leading decimal digits of `s` as a number
and the rest of `s`; `none` on overflow. -/
def leadingInt : List Char → Nat → Option (Nat × List Char)
  | [], x => some (x, [])
  | c :: cs, x =>
    if isDigit c then
      if x > 2 ^ 63 / 10 then none
      else
        let x1 := x * 10 + (c.toNat - '0'.toNat)
        if x1 > 2 ^ 63 then none else leadingInt cs x1
    else some (x, c :: cs)

/-- The function `leadingFraction` of package `time`: the digits after the decimal point as a
number `x`, the count of digits accumulated (`scale = 10^digits`), and the rest of `s`. -/
def leadingFraction : List Char → Nat → Nat → Bool → Nat × Nat × List Char
  | [], x, k, _ => (x, k, [])
  | c :: cs, x, k, overflow =>
    if isDigit c then
      if overflow then leadingFraction cs x k overflow
      else if x > (2 ^ 63 - 1) / 10 then leadingFraction cs x k true
      else
        let y := x * 10 + (c.toNat - '0'.toNat)
        if y > 2 ^ 63 then leadingFraction cs x k true
        else leadingFraction cs y (k + 1) overflow
    else (x, k, c :: cs)

/-- The table `unitMap` of package `time`, in nanoseconds. -/
def unitMap (u : String) : Option Nat :=
  if u = "ns" then some 1
  else if u = "us" then some 1000
  else if u = "µs" then some 1000
  else if u = "μs" then some 1000
  else if u = "ms" then some 1000000
  else if u = "s" then some 1000000000
  else if u = "m" then some 60000000000
  else if u = "h" then some 3600000000000
  else none

/-- Whether `c` ends a unit name: a dot or a digit. -/
def endsUnit (c : Char) : Bool := c = '.' || isDigit c

/-- The step of `time.ParseDuration` that consumes an optional `.` followed by digits: whether
digits were consumed after the dot (`post`), the fraction `f`, the number of its digits
(`scale = 10^digits`), and the rest of the string. -/
def consumeFraction (s1 : List Char) : Bool × Nat × Nat × List Char :=
  match s1 with
  | '.' :: s2 =>
    let r := leadingFraction s2 0 0 false
    (s2.length ≠ r.2.2.length, r.1, r.2.1, r.2.2)
  | _ => (false, 0, 0, s1)

/-- The loop `for s != ""` of `time.ParseDuration`, with the accumulated `d`. Each round
consumes at least one character, so `fuel = len(s)` rounds suffice (`durationLoop_fuel`);
`none` is returned only when the fuel runs out. -/
def durationLoop {F T U : Type} (S : Std F T U) (orig : String) :
    Nat → List Char → Nat → Option (Except Error Nat)
  | _, [], d => some (.ok d)
  | 0, _ :: _, _ => none
  | fuel + 1, c :: cs, d =>
    if ¬ (c = '.' ∨ isDigit c) then some (.error (.invalidDuration orig))
    else
      match leadingInt (c :: cs) 0 with
      | none => some (.error (.invalidDuration orig))
      | some (v, s1) =>
        let pre := (c :: cs).length ≠ s1.length
        let post := (consumeFraction s1).1
        let f := (consumeFraction s1).2.1
        let digits := (consumeFraction s1).2.2.1
        let s3 := (consumeFraction s1).2.2.2
        if ¬ pre ∧ ¬ post then some (.error (.invalidDuration orig))
        else
          let u := s3.takeWhile (fun x => ! endsUnit x)
          let s4 := s3.dropWhile (fun x => ! endsUnit x)
          if u = [] then some (.error (.missingUnit orig))
          else
            match unitMap (String.mk u) with
            | none => some (.error (.unknownUnit (String.mk u) orig))
            | some unit =>
              if v > 2 ^ 63 / unit then some (.error (.invalidDuration orig))
              else
                -- `v *= unit`; when `f > 0` the fraction is added and checked for overflow
                let scaled : Option Nat :=
                  if f > 0 then
                    let v2 := (v * unit + S.fracNanos f unit digits) % 2 ^ 64
                    if v2 > 2 ^ 63 then none else some v2
                  else some (v * unit)
                match scaled with
                | none => some (.error (.invalidDuration orig))
                | some v2 =>
                  let d1 := (d + v2) % 2 ^ 64
                  if d1 > 2 ^ 63 then some (.error (.invalidDuration orig))
                  else durationLoop S orig fuel s4 d1

/-- The function `time.ParseDuration(s)`, in nanoseconds. -/
def ParseDuration {F T U : Type} (S : Std F T U) (s : String) : Except Error Int :=
  let neg := s.data.head? = some '-'
  let body :=
    match s.data with
    | c :: cs => if c = '-' ∨ c = '+' then cs else c :: cs
    | [] => []
  if body = ['0'] then .ok 0
  else if body = [] then .error (.invalidDuration s)
  else
    match durationLoop S s body.length body 0 with
    | none => .error (.invalidDuration s)
    | some (.error e) => .error e
    | some (.ok d) =>
      if neg then .ok (- (d : Int))
      else if d > 2 ^ 63 - 1 then .error (.invalidDuration s)
      else .ok (d : Int)

/-! ## Types and values seen through `reflect` -/

/-- Go types as far as `Populate` inspects them. -/
inductive GoType where
  /-- a predeclared or defined type of non-pointer, non-interface kind; predeclared types
  have the empty package path -/
  | named (pkgPath name : String)
  /-- the pointer type `*elem` (`Kind() == reflect.Ptr`) -/
  | ptr (elem : GoType)
  /-- any other type literal (slice, map, func, anonymous struct, ...): `Name()` is `""` -/
  | unnamed (descr : String)
  deriving DecidableEq, Repr

/-- The test `t.Kind() == reflect.Ptr`. -/
def GoType.isPtr : GoType → Bool
  | .ptr _ => true
  | _ => false

/-- The method `t.Name()`: the name of a named type, `""` otherwise. -/
def GoType.Name : GoType → String
  | .named _ n => n
  | _ => ""

/-- The method `t.Elem()` of a pointer type. -/
def GoType.Elem : GoType → GoType
  | .ptr e => e
  | t => t

/-- Go values held by fields and returned by fetchers. -/
inductive Val (F T U : Type) where
  | str (s : String)
  | int (i : Int)
  | bool (b : Bool)
  | float64 (f : F)
  | time (t : T)
  /-- a `time.Duration`, in nanoseconds -/
  | duration (d : Int)
  | url (u : U)
  /-- a non-nil pointer to a variable holding `v` -/
  | ptr (v : Val F T U)
  /-- any other value (a nil pointer, a struct, ...), known only by its type -/
  | other (ty : GoType) (id : Nat)

/-- The dynamic type of a value. -/
def Val.typeOf {F T U : Type} : Val F T U → GoType
  | .str _ => .named "" "string"
  | .int _ => .named "" "int"
  | .bool _ => .named "" "bool"
  | .float64 _ => .named "" "float64"
  | .time _ => .named "time" "Time"
  | .duration _ => .named "time" "Duration"
  | .url _ => .named "net/url" "URL"
  | .ptr v => .ptr v.typeOf
  | .other ty _ => ty

/-- A struct field as `reflect` presents it. -/
structure Field (F T U : Type) where
  Name : String
  /-- the declared type, `v.Type().Field(i).Type` -/
  Typ : GoType
  /-- the struct tag, as its `key:"value"` pairs -/
  Tag : List (String × String)
  /-- The method `v.Field(i).CanAddr()` -/
  CanAddr : Bool
  /-- The method `v.Field(i).CanSet()`: false for unexported fields -/
  CanSet : Bool
  /-- the value currently stored in the field -/
  value : Val F T U

/-- The assignment `v.Field(i).Set(x)` to a field, once `x` is known to be assignable. -/
def Field.Set {F T U : Type} (fld : Field F T U) (x : Val F T U) : Field F T U :=
  { fld with value := x }

/-- The method `tag.Get(key)`: the value of `key` in the struct tag, `""` when the key is
absent. -/
def TagGet (tag : List (String × String)) (key : String) : String :=
  match tag with
  | [] => ""
  | (k, v) :: rest => if k = key then v else TagGet rest key

/-- The constant `tagName`. -/
def tagName : String := "conf"

/-! ## Fetchers (`fetchers.go`) -/

structure StringFetcher where
  VarName : String
  IsPtr : Bool
  HasDef : Bool
  Default : String
  deriving DecidableEq, Repr

structure IntFetcher where
  VarName : String
  IsPtr : Bool
  HasDef : Bool
  Default : String
  deriving DecidableEq, Repr

structure BoolFetcher where
  VarName : String
  IsPtr : Bool
  HasDef : Bool
  Default : String
  deriving DecidableEq, Repr

structure Float64Fetcher where
  VarName : String
  IsPtr : Bool
  HasDef : Bool
  Default : String
  deriving DecidableEq, Repr

structure TimeFetcher where
  VarName : String
  IsPtr : Bool
  HasDef : Bool
  Default : String
  Format : String
  deriving DecidableEq, Repr

structure DurationFetcher where
  VarName : String
  IsPtr : Bool
  HasDef : Bool
  Default : String
  deriving DecidableEq, Repr

structure URLFetcher where
  VarName : String
  IsPtr : Bool
  HasDef : Bool
  Default : String
  deriving DecidableEq, Repr

/-- The result of a `Fetch`: the returned `(reflect.Value, error)` and the world after it. -/
abbrev Fetched (F T U : Type) := Except Error (Val F T U) × World T

/-- The method `StringFetcher.Fetch`. -/
def StringFetcher.Fetch {F T U : Type} (v : StringFetcher) (w : World T) : Fetched F T U :=
  let r := Getenv w v.VarName
  let val := if r.1 = "" ∧ v.HasDef then v.Default else r.1
  if v.IsPtr then (.ok (.ptr (.str val)), r.2)
  else (.ok (.str val), r.2)

/-- The method `IntFetcher.Fetch`. -/
def IntFetcher.Fetch {F T U : Type} (v : IntFetcher) (w : World T) : Fetched F T U :=
  let r := Getenv w v.VarName
  let val := if r.1 = "" ∧ v.HasDef then v.Default else r.1
  match ParseInt val with
  | .error err => (.error err, r.2)
  | .ok intv =>
    if v.IsPtr then (.ok (.ptr (.int intv)), r.2)
    else (.ok (.int intv), r.2)

/-- The method `BoolFetcher.Fetch`. -/
def BoolFetcher.Fetch {F T U : Type} (v : BoolFetcher) (w : World T) : Fetched F T U :=
  let r := Getenv w v.VarName
  let val := if r.1 = "" ∧ v.HasDef then v.Default else r.1
  match ParseBool val with
  | .error err => (.error err, r.2)
  | .ok bv =>
    if v.IsPtr then (.ok (.ptr (.bool bv)), r.2)
    else (.ok (.bool bv), r.2)

/-- The method `Float64Fetcher.Fetch`. -/
def Float64Fetcher.Fetch {F T U : Type} (S : Std F T U) (v : Float64Fetcher) (w : World T) :
    Fetched F T U :=
  let r := Getenv w v.VarName
  let val := if r.1 = "" ∧ v.HasDef then v.Default else r.1
  if val ≠ "random" then
    match ParseFloat S val with
    | .error err => (.error err, r.2)
    | .ok f =>
      if v.IsPtr then (.ok (.ptr (.float64 f)), r.2)
      else (.ok (.float64 f), r.2)
  else
    let n := Now r.2
    let f := S.Float64 (S.UnixNano n.1)
    if v.IsPtr then (.ok (.ptr (.float64 f)), n.2)
    else (.ok (.float64 f), n.2)

/-- The method `TimeFetcher.Fetch`. -/
def TimeFetcher.Fetch {F T U : Type} (S : Std F T U) (v : TimeFetcher) (w : World T) :
    Fetched F T U :=
  let r := Getenv w v.VarName
  let val := if r.1 = "" ∧ v.HasDef then v.Default else r.1
  if val ≠ "now" then
    match S.Parse v.Format val with
    | .error err => (.error err, r.2)
    | .ok tt =>
      if v.IsPtr then (.ok (.ptr (.time tt)), r.2)
      else (.ok (.time tt), r.2)
  else
    let n := Now r.2
    if v.IsPtr then (.ok (.ptr (.time n.1)), n.2)
    else (.ok (.time n.1), n.2)

/-- The method `DurationFetcher.Fetch`. -/
def DurationFetcher.Fetch {F T U : Type} (S : Std F T U) (v : DurationFetcher) (w : World T) :
    Fetched F T U :=
  let r := Getenv w v.VarName
  let val := if r.1 = "" ∧ v.HasDef then v.Default else r.1
  match ParseDuration S val with
  | .error err => (.error err, r.2)
  | .ok d =>
    if v.IsPtr then (.ok (.ptr (.duration d)), r.2)
    else (.ok (.duration d), r.2)

/-- The method `URLFetcher.Fetch`: `url.Parse` yields a `*url.URL`, returned as it is for a
pointer field and dereferenced otherwise. -/
def URLFetcher.Fetch {F T U : Type} (S : Std F T U) (v : URLFetcher) (w : World T) :
    Fetched F T U :=
  let r := Getenv w v.VarName
  let val := if r.1 = "" ∧ v.HasDef then v.Default else r.1
  match S.UrlParse val with
  | .error err => (.error err, r.2)
  | .ok url =>
    if v.IsPtr then (.ok (.ptr (.url url)), r.2)
    else (.ok (.url url), r.2)

/-- The interface `Fetcher`: one of the seven implementations. -/
inductive Fetcher where
  | string (f : StringFetcher)
  | int (f : IntFetcher)
  | bool (f : BoolFetcher)
  | float64 (f : Float64Fetcher)
  | time (f : TimeFetcher)
  | duration (f : DurationFetcher)
  | url (f : URLFetcher)
  deriving DecidableEq, Repr

/-- The method call `f.Fetch()` on the interface value. -/
def Fetcher.Fetch {F T U : Type} (S : Std F T U) (f : Fetcher) (w : World T) : Fetched F T U :=
  match f with
  | .string v => v.Fetch w
  | .int v => v.Fetch w
  | .bool v => v.Fetch w
  | .float64 v => v.Fetch S w
  | .time v => v.Fetch S w
  | .duration v => v.Fetch S w
  | .url v => v.Fetch S w

/-! ## `getFetcher` and `Populate` (`main.go`) -/

/-- The local variables `defVal`, `format`, `hasDef` of `getFetcher`. -/
structure Opts where
  defVal : String
  format : String
  hasDef : Bool
  deriving DecidableEq, Repr

/-- The loop `for i := 1; i < len(args); i++` of `getFetcher`, over the remaining tokens. -/
def parseOptions : List String → Opts → Res Opts
  | [], o => .ok o
  | arg :: rest, o =>
    let argParts := Split arg '='
    (index argParts 0).bind fun key =>
      if TrimSpace key = "default" then
        (index argParts 1).bind fun x =>
          parseOptions rest { o with defVal := x, hasDef := true }
      else if TrimSpace key = "format" then
        (index argParts 1).bind fun x =>
          parseOptions rest { o with format := x }
      else parseOptions rest o

/-- The function `getFetcher(tag, t, ptr)`. -/
def getFetcher (tag : String) (t : String) (ptr : Bool) : Res Fetcher :=
  let args := Split tag ','
  (index args 0).bind fun a0 =>
    let varName := TrimSpace a0
    (if args.length > 1 then parseOptions (args.drop 1) ⟨"", "", false⟩
      else .ok ⟨"", "", false⟩).bind fun o =>
      if t = "string" then .ok (.string ⟨varName, ptr, o.hasDef, o.defVal⟩)
      else if t = "int" then .ok (.int ⟨varName, ptr, o.hasDef, o.defVal⟩)
      else if t = "bool" then .ok (.bool ⟨varName, ptr, o.hasDef, o.defVal⟩)
      else if t = "float64" then .ok (.float64 ⟨varName, ptr, o.hasDef, o.defVal⟩)
      else if t = "Time" then .ok (.time ⟨varName, ptr, o.hasDef, o.defVal, o.format⟩)
      else if t = "Duration" then .ok (.duration ⟨varName, ptr, o.hasDef, o.defVal⟩)
      else if t = "URL" then .ok (.url ⟨varName, ptr, o.hasDef, o.defVal⟩)
      else .err (.errorf ("confstruct does not (yet) support variables of type: " ++ t))

/-- How a call of `Populate` ends. -/
inductive Outcome where
  /-- The statement `return nil` -/
  | success
  /-- The statement `return err` -/
  | failure (e : Error)
  /-- the call panics -/
  | panicked (p : Panic)
  deriving DecidableEq, Repr

/-- The state after the field loop: how it ended, the fields, the world. -/
structure Walk (F T U : Type) where
  outcome : Outcome
  fields : List (Field F T U)
  world : World T

/-- Put an already processed field in front of the result of the remaining walk. -/
def Walk.cons {F T U : Type} (f : Field F T U) (r : Walk F T U) : Walk F T U :=
  { r with fields := f :: r.fields }

/-- The loop `for i := 0; i < v.NumField(); i++` of `Populate`, over the remaining fields. -/
def populateFields {F T U : Type} (S : Std F T U) :
    List (Field F T U) → World T → Walk F T U
  | [], w => ⟨.success, [], w⟩
  | fld :: rest, w =>
    let tag := TagGet fld.Tag tagName
    if tag = "" ∨ tag = "-" then (populateFields S rest w).cons fld
    else
      let t := if fld.Typ.isPtr then fld.Typ.Elem.Name else fld.Typ.Name
      let ptr := fld.Typ.isPtr
      match getFetcher tag t ptr with
      | .panic p => ⟨.panicked p, fld :: rest, w⟩
      | .err err => ⟨.failure err, fld :: rest, w⟩
      | .ok f =>
        if fld.CanAddr ∧ fld.CanSet then
          match f.Fetch S w with
          | (.error err, w1) => ⟨.failure err, fld :: rest, w1⟩
          | (.ok rval, w1) =>
            if rval.typeOf = fld.Typ then
              (populateFields S rest w1).cons (fld.Set rval)
            else ⟨.panicked .notAssignable, fld :: rest, w1⟩
        else (populateFields S rest w).cons fld

/-- What a pointer passed to `Populate` points to. -/
inductive Target (F T U : Type) where
  /-- a struct with these fields -/
  | struct (fields : List (Field F T U))
  /-- a value of any other kind -/
  | nonStruct (v : Val F T U)

/-- The argument `cs interface{}` of `Populate`. -/
inductive Arg (F T U : Type) where
  /-- a pointer; `none` is the nil pointer -/
  | pointer (target : Option (Target F T U))
  /-- anything that is not a pointer, in particular a struct passed by value -/
  | value (v : Target F T U)

/-- The result of `Populate`: how it ended, the caller's argument afterwards, the world. -/
structure Populated (F T U : Type) where
  outcome : Outcome
  arg : Arg F T U
  world : World T

/-- The function `Populate(cs)`. -/
def Populate {F T U : Type} (S : Std F T U) (cs : Arg F T U) (w : World T) :
    Populated F T U :=
  match cs with
  | .value _ => ⟨.failure (.errorf "argument must be pointer to struct"), cs, w⟩
  | .pointer none => ⟨.failure (.errorf "can't populate non-struct type"), cs, w⟩
  | .pointer (some (.nonStruct _)) =>
    ⟨.failure (.errorf "can't populate non-struct type"), cs, w⟩
  | .pointer (some (.struct fields)) =>
    let r := populateFields S fields w
    ⟨r.outcome, .pointer (some (.struct r.fields)), r.world⟩

/-! ## Conversion rules as the specification tables them -/

/-- The seven supported semantic types. -/
inductive Kind where
  | string | int | bool | float64 | time | duration | url
  deriving DecidableEq, Repr

/-- The semantic type a fetcher converts to. -/
def Fetcher.kind : Fetcher → Kind
  | .string _ => .string
  | .int _ => .int
  | .bool _ => .bool
  | .float64 _ => .float64
  | .time _ => .time
  | .duration _ => .duration
  | .url _ => .url

/-- The field `VarName` of a fetcher. -/
def Fetcher.VarName : Fetcher → String
  | .string v => v.VarName
  | .int v => v.VarName
  | .bool v => v.VarName
  | .float64 v => v.VarName
  | .time v => v.VarName
  | .duration v => v.VarName
  | .url v => v.VarName

/-- The field `IsPtr` of a fetcher. -/
def Fetcher.IsPtr : Fetcher → Bool
  | .string v => v.IsPtr
  | .int v => v.IsPtr
  | .bool v => v.IsPtr
  | .float64 v => v.IsPtr
  | .time v => v.IsPtr
  | .duration v => v.IsPtr
  | .url v => v.IsPtr

/-- The field `HasDef` of a fetcher. -/
def Fetcher.HasDef : Fetcher → Bool
  | .string v => v.HasDef
  | .int v => v.HasDef
  | .bool v => v.HasDef
  | .float64 v => v.HasDef
  | .time v => v.HasDef
  | .duration v => v.HasDef
  | .url v => v.HasDef

/-- The field `Default` of a fetcher. -/
def Fetcher.Default : Fetcher → String
  | .string v => v.Default
  | .int v => v.Default
  | .bool v => v.Default
  | .float64 v => v.Default
  | .time v => v.Default
  | .duration v => v.Default
  | .url v => v.Default

/-- The field `Format` of a timestamp fetcher, `""` for the others. -/
def Fetcher.Format : Fetcher → String
  | .time v => v.Format
  | _ => ""

/-- The conversion of the string `s` to a semantic type, after the table of per-type
conversion rules of the specification: text is the identity, integer a base-10 parse,
boolean the canonical spellings, floating-point a float parse with the literal `random`,
timestamp a parse by the layout `format` with the literal `now`, duration a composite
duration string, URL a structured URL. -/
def convert {F T U : Type} (S : Std F T U) (k : Kind) (format s : String) (w : World T) :
    Fetched F T U :=
  match k with
  | .string => (.ok (.str s), w)
  | .int =>
    match ParseInt s with
    | .ok i => (.ok (.int i), w)
    | .error e => (.error e, w)
  | .bool =>
    match ParseBool s with
    | .ok b => (.ok (.bool b), w)
    | .error e => (.error e, w)
  | .float64 =>
    if s = "random" then (.ok (.float64 (S.Float64 (S.UnixNano (Now w).1))), (Now w).2)
    else
      match ParseFloat S s with
      | .ok f => (.ok (.float64 f), w)
      | .error e => (.error e, w)
  | .time =>
    if s = "now" then (.ok (.time (Now w).1), (Now w).2)
    else
      match S.Parse format s with
      | .ok t => (.ok (.time t), w)
      | .error e => (.error e, w)
  | .duration =>
    match ParseDuration S s with
    | .ok d => (.ok (.duration d), w)
    | .error e => (.error e, w)
  | .url =>
    match S.UrlParse s with
    | .ok u => (.ok (.url u), w)
    | .error e => (.error e, w)

/-- The third step of the common algorithm of the specification: an optional (pointer)
field receives an indirection to the converted value, any other field the value itself. -/
def deliver {F T U : Type} (isPtr : Bool) (r : Fetched F T U) : Fetched F T U :=
  match r with
  | (.ok v, w) => (.ok (if isPtr then .ptr v else v), w)
  | (.error e, w) => (.error e, w)

/-- The string a fetcher converts: the default when the value read is empty and a default
was supplied, the value read otherwise. -/
def effective (f : Fetcher) (val : String) : String :=
  if val = "" ∧ f.HasDef then f.Default else val

/-- An instance of the library parameters on which the definitions can be run: a float is
read as a decimal integer, a timestamp is the non-empty value itself, a URL is the raw
string, and the fraction of a duration is rounded down exactly. -/
def sampleStd : Std Int String String where
  atof64 := fun s =>
    match ParseInt s with
    | .ok i => .ok i
    | .error _ => .error (.syntaxError "ParseFloat" s)
  Parse := fun _ value => if value = "" then .error (.lib "parsing time") else .ok value
  UrlParse := fun s => .ok s
  Float64 := fun _ => 0
  UnixNano := fun _ => 0
  fracNanos := fun f unit digits => f * unit / 10 ^ digits

/-- A world with an empty environment, an empty read log and a clock stuck at `"t0"`. -/
def emptyWorld : World String := ⟨fun _ => none, [], fun _ => "t0", 0⟩

/-- The world `w` with the variable `name` set to `value`. -/
def World.setenv {T : Type} (w : World T) (name value : String) : World T :=
  { w with env := fun n => if n = name then some value else w.env n }

/-! ## Predicates, helper functions and records used in the statements -/

/-- An option token on which `getFetcher` indexes out of range: the key `default` or
`format` without any `=`. -/
def bareOption (arg : String) : Prop :=
  '=' ∉ arg.data ∧ (TrimSpace arg = "default" ∨ TrimSpace arg = "format")

instance (arg : String) : Decidable (bareOption arg) := by
  unfold bareOption
  exact inferInstance

/-- No option token of the tag is a bare `default` or `format`. -/
def WellFormed (tag : String) : Prop :=
  ∀ arg ∈ (Split tag ',').drop 1, ¬ bareOption arg

instance (tag : String) : Decidable (WellFormed tag) := by
  unfold WellFormed
  exact inferInstance

/-- The type names for which `getFetcher` has a case. -/
def supported (t : String) : Prop :=
  t = "string" ∨ t = "int" ∨ t = "bool" ∨ t = "float64" ∨ t = "Time" ∨ t = "Duration" ∨
    t = "URL"

instance (t : String) : Decidable (supported t) := by
  unfold supported
  exact inferInstance

/-- The `switch t` of `getFetcher`, as a function of the parsed tag. -/
def typeSwitch (varName : String) (ptr : Bool) (t : String) (o : Opts) : Res Fetcher :=
  if t = "string" then .ok (.string ⟨varName, ptr, o.hasDef, o.defVal⟩)
  else if t = "int" then .ok (.int ⟨varName, ptr, o.hasDef, o.defVal⟩)
  else if t = "bool" then .ok (.bool ⟨varName, ptr, o.hasDef, o.defVal⟩)
  else if t = "float64" then .ok (.float64 ⟨varName, ptr, o.hasDef, o.defVal⟩)
  else if t = "Time" then .ok (.time ⟨varName, ptr, o.hasDef, o.defVal, o.format⟩)
  else if t = "Duration" then .ok (.duration ⟨varName, ptr, o.hasDef, o.defVal⟩)
  else if t = "URL" then .ok (.url ⟨varName, ptr, o.hasDef, o.defVal⟩)
  else .err (.errorf ("confstruct does not (yet) support variables of type: " ++ t))

/-- The field is skipped by its tag: the `conf` value is `""` (also when absent) or `"-"`. -/
def skipped {F T U : Type} (fld : Field F T U) : Prop :=
  TagGet fld.Tag tagName = "" ∨ TagGet fld.Tag tagName = "-"

/-- The type name and pointer flag `Populate` passes to `getFetcher` for a field. -/
def baseName {F T U : Type} (fld : Field F T U) : String :=
  if fld.Typ.isPtr then fld.Typ.Elem.Name else fld.Typ.Name

/-- A settable field with the given name, type, `conf` tag and zero value. -/
def mkField {F T U : Type} (name : String) (ty : GoType) (conf : String) (zero : Val F T U) :
    Field F T U :=
  ⟨name, ty, [("conf", conf)], true, true, zero⟩

/-- The type `Dummy struct{}` of the tests, for which there is no fetcher. -/
def dummyType : GoType := .named "confstruct" "Dummy"

/-- The fields `A` and `B` of `ValidTestStruct`, zero-valued. -/
def overrideRecord {F T U : Type} : List (Field F T U) :=
  [ mkField "A" (.named "" "string") "FIELDA,default=foo" (.str ""),
    mkField "B" (.named "" "int") "FIELDB,default=10" (.int 0) ]

instance {F T U : Type} (fld : Field F T U) : Decidable (skipped fld) := by
  unfold skipped
  exact inferInstance

/-- Two fetchers that differ at most in `IsPtr`. -/
def sameButPtr (f g : Fetcher) : Prop :=
  f.kind = g.kind ∧ f.VarName = g.VarName ∧ f.HasDef = g.HasDef ∧ f.Default = g.Default ∧
    f.Format = g.Format

/-- An `int` field without default followed by a field of the unsupported type `Dummy`. -/
def earlyFailRecord : List (Field Int String String) :=
  [ mkField "B" (.named "" "int") "FIELDB" (.int 0),
    mkField "E" dummyType "FIELDE" (.other dummyType 0) ]

/-- An unexported field of the unsupported type `Dummy` with a non-skip tag. -/
def unexportedDummy : Field Int String String :=
  ⟨"e", dummyType, [("conf", "FIELDE")], true, false, .other dummyType 0⟩

/-- An unexported `int` field with a non-skip tag, holding `7`. -/
def unexportedInt : Field Int String String :=
  ⟨"b", .named "" "int", [("conf", "FIELDB")], true, false, .int 7⟩

/-- The key of an option token as `getFetcher` reads it: `strings.TrimSpace(argParts[0])`. -/
def optionKey (arg : String) : String :=
  TrimSpace ((Split arg '=').head?.getD "")

/-- The tag declares a default: one of its option tokens has the key `default`. -/
def declaresDefault (tag : String) : Prop :=
  ∃ arg ∈ (Split tag ',').drop 1, optionKey arg = "default"

instance (tag : String) : Decidable (declaresDefault tag) := by
  unfold declaresDefault
  exact inferInstance

/-- The environment variable a tag names: its first token, trimmed. -/
def varNameOf (tag : String) : String :=
  TrimSpace ((Split tag ',').head?.getD "")

/-- The semantic type `getFetcher` selects for a type name. -/
def kindOfName (t : String) : Option Kind :=
  if t = "string" then some .string
  else if t = "int" then some .int
  else if t = "bool" then some .bool
  else if t = "float64" then some .float64
  else if t = "Time" then some .time
  else if t = "Duration" then some .duration
  else if t = "URL" then some .url
  else none

/-- An `int` field and a `bool` field, both without default. -/
def twoScalarsRecord : List (Field Int String String) :=
  [ mkField "B" (.named "" "int") "FIELDB" (.int 0),
    mkField "H" (.named "" "bool") "FIELDH" (.bool false) ]

/-- A `string` field followed by an `int` field, both without default. -/
def stringThenIntRecord : List (Field Int String String) :=
  [ mkField "A" (.named "" "string") "FIELDA" (.str "old"),
    mkField "B" (.named "" "int") "FIELDB" (.int 0) ]

/-- The error each parsed scalar type reports for the empty string. -/
def emptyError : Kind → Option Error
  | .int => some (.syntaxError "ParseInt" "")
  | .bool => some (.syntaxError "ParseBool" "")
  | .float64 => some (.syntaxError "ParseFloat" "")
  | .duration => some (.invalidDuration "")
  | _ => none

/-! ## The fuel of the duration loop -/

theorem leadingInt_length (s : List Char) (x v : Nat) (r : List Char)
    (h : leadingInt s x = some (v, r)) : r.length ≤ s.length := by
  induction s generalizing x with
  | nil =>
    simp only [leadingInt, Option.some.injEq, Prod.mk.injEq] at h
    rw [← h.2]
  | cons c cs ih =>
    simp only [leadingInt] at h
    split at h
    · split at h
      · cases h
      · split at h
        · cases h
        · have := ih _ h
          simp only [List.length_cons]
          omega
    · simp only [Option.some.injEq, Prod.mk.injEq] at h
      rw [← h.2]

theorem leadingFraction_length (s : List Char) (x k : Nat) (o : Bool) :
    (leadingFraction s x k o).2.2.length ≤ s.length := by
  induction s generalizing x k o with
  | nil => simp [leadingFraction]
  | cons c cs ih =>
    simp only [leadingFraction]
    split
    · split
      · exact Nat.le_succ_of_le (ih _ _ _)
      · split
        · exact Nat.le_succ_of_le (ih _ _ _)
        · split
          · exact Nat.le_succ_of_le (ih _ _ _)
          · exact Nat.le_succ_of_le (ih _ _ _)
    · exact Nat.le_refl _

theorem consumeFraction_length (s1 : List Char) :
    (consumeFraction s1).2.2.2.length ≤ s1.length := by
  unfold consumeFraction
  split
  · exact Nat.le_succ_of_le (leadingFraction_length _ _ _ _)
  · exact Nat.le_refl _

theorem dropWhile_length_lt (p : Char → Bool) (l : List Char) (h : l.takeWhile p ≠ []) :
    (l.dropWhile p).length < l.length := by
  have h1 : (l.takeWhile p).length + (l.dropWhile p).length = l.length := by
    rw [← List.length_append, List.takeWhile_append_dropWhile]
  have h2 : 0 < (l.takeWhile p).length := List.length_pos.mpr h
  omega

/-- With as much fuel as the string has characters the duration loop never runs out of fuel:
it returns a duration or an error. -/
theorem durationLoop_fuel {F T U : Type} (S : Std F T U) (orig : String) (fuel : Nat)
    (s : List Char) (d : Nat) (h : s.length ≤ fuel) :
    (durationLoop S orig fuel s d).isSome = true := by
  induction fuel generalizing s d with
  | zero =>
    cases s with
    | nil => rfl
    | cons c cs => simp at h
  | succ n ih =>
    cases s with
    | nil => rfl
    | cons c cs =>
      simp only [durationLoop]
      split
      · rfl
      · split
        · rfl
        · rename_i v s1 hl
          have h1 := leadingInt_length _ _ _ _ hl
          have h2 := consumeFraction_length s1
          split
          · rfl
          · split
            · rfl
            · rename_i hu
              have h3 := dropWhile_length_lt _ _ hu
              split
              · rfl
              · split
                · rfl
                · split
                  · rfl
                  · split
                    · rfl
                    · apply ih
                      simp only [List.length_cons] at h h1
                      omega

/-- Every call `time.ParseDuration(s)` gives its loop enough fuel. -/
theorem ParseDuration_fuel {F T U : Type} (S : Std F T U) (orig : String) (body : List Char) :
    durationLoop S orig body.length body 0 ≠ none := by
  have h := durationLoop_fuel S orig body.length body 0 (Nat.le_refl _)
  intro e
  rw [e] at h
  cases h

/-! ## Lemmas on the fetchers -/

theorem Fetch_eq_convert {F T U : Type} (S : Std F T U) (f : Fetcher) (w : World T) :
    f.Fetch S w =
      deliver f.IsPtr
        (convert S f.kind f.Format (effective f (Getenv w f.VarName).1)
          (Getenv w f.VarName).2) := by
  cases f with
  | string v =>
    simp only [Fetcher.Fetch, StringFetcher.Fetch, Fetcher.IsPtr, Fetcher.kind, convert, deliver,
      effective, Fetcher.HasDef, Fetcher.Default, Fetcher.VarName]
    split <;> rfl
  | int v =>
    simp only [Fetcher.Fetch, IntFetcher.Fetch, Fetcher.IsPtr, Fetcher.kind, convert, deliver,
      effective, Fetcher.HasDef, Fetcher.Default, Fetcher.VarName]
    cases ParseInt (if (Getenv w v.VarName).1 = "" ∧ v.HasDef = true then v.Default
      else (Getenv w v.VarName).1) <;> simp <;> split <;> simp_all
  | bool v =>
    simp only [Fetcher.Fetch, BoolFetcher.Fetch, Fetcher.IsPtr, Fetcher.kind, convert, deliver,
      effective, Fetcher.HasDef, Fetcher.Default, Fetcher.VarName]
    cases ParseBool (if (Getenv w v.VarName).1 = "" ∧ v.HasDef = true then v.Default
      else (Getenv w v.VarName).1) <;> simp <;> split <;> simp_all
  | float64 v =>
    simp only [Fetcher.Fetch, Float64Fetcher.Fetch, Fetcher.IsPtr, Fetcher.kind, convert,
      deliver, effective, Fetcher.HasDef, Fetcher.Default, Fetcher.VarName]
    by_cases h : (if (Getenv w v.VarName).1 = "" ∧ v.HasDef = true then v.Default
      else (Getenv w v.VarName).1) = "random"
    · simp only [h, ne_eq, not_true_eq_false, if_false, if_true]
      split <;> rfl
    · simp only [h, ne_eq, not_false_eq_true, if_true, if_false]
      cases ParseFloat S (if (Getenv w v.VarName).1 = "" ∧ v.HasDef = true then v.Default
        else (Getenv w v.VarName).1) <;> simp <;> split <;> simp_all
  | time v =>
    simp only [Fetcher.Fetch, TimeFetcher.Fetch, Fetcher.IsPtr, Fetcher.kind, convert,
      deliver, effective, Fetcher.HasDef, Fetcher.Default, Fetcher.VarName, Fetcher.Format]
    by_cases h : (if (Getenv w v.VarName).1 = "" ∧ v.HasDef = true then v.Default
      else (Getenv w v.VarName).1) = "now"
    · simp only [h, ne_eq, not_true_eq_false, if_false, if_true]
      split <;> rfl
    · simp only [h, ne_eq, not_false_eq_true, if_true, if_false]
      cases S.Parse v.Format (if (Getenv w v.VarName).1 = "" ∧ v.HasDef = true then v.Default
        else (Getenv w v.VarName).1) <;> simp <;> split <;> simp_all
  | duration v =>
    simp only [Fetcher.Fetch, DurationFetcher.Fetch, Fetcher.IsPtr, Fetcher.kind, convert,
      deliver, effective, Fetcher.HasDef, Fetcher.Default, Fetcher.VarName]
    cases ParseDuration S (if (Getenv w v.VarName).1 = "" ∧ v.HasDef = true then v.Default
      else (Getenv w v.VarName).1) <;> simp <;> split <;> simp_all
  | url v =>
    simp only [Fetcher.Fetch, URLFetcher.Fetch, Fetcher.IsPtr, Fetcher.kind, convert,
      deliver, effective, Fetcher.HasDef, Fetcher.Default, Fetcher.VarName]
    cases S.UrlParse (if (Getenv w v.VarName).1 = "" ∧ v.HasDef = true then v.Default
      else (Getenv w v.VarName).1) <;> simp <;> split <;> simp_all

/-! ## Lemmas on splitting and on `getFetcher` -/

theorem splitChars_ne_nil (sep : Char) (cs : List Char) : splitChars sep cs ≠ [] := by
  cases cs with
  | nil => simp [splitChars]
  | cons c cs =>
    simp only [splitChars]
    split
    · simp
    · split <;> simp

theorem splitChars_of_not_mem (sep : Char) (cs : List Char) (h : sep ∉ cs) :
    splitChars sep cs = [cs] := by
  induction cs with
  | nil => rfl
  | cons c cs ih =>
    have hc : c ≠ sep := fun e => h (by simp [e])
    have hcs : sep ∉ cs := fun m => h (List.mem_cons_of_mem _ m)
    simp [splitChars, hc, ih hcs]

theorem splitChars_length_of_mem (sep : Char) (cs : List Char) (h : sep ∈ cs) :
    2 ≤ (splitChars sep cs).length := by
  induction cs with
  | nil => simp at h
  | cons c cs ih =>
    by_cases hc : c = sep
    · have := splitChars_ne_nil sep cs
      simp only [splitChars, hc, if_true, List.length_cons]
      have : 0 < (splitChars sep cs).length := List.length_pos.mpr this
      omega
    · have hm : sep ∈ cs := by
        rcases List.mem_cons.mp h with e | m
        · exact absurd e.symm hc
        · exact m
      have := ih hm
      simp only [splitChars, hc, if_false]
      split
      · rename_i e
        rw [e] at this
        simp at this
      · rename_i p ps e
        rw [e] at this
        simpa using this

theorem splitChars_append_sep (sep : Char) (xs ys : List Char) (h : sep ∉ xs) :
    splitChars sep (xs ++ sep :: ys) = xs :: splitChars sep ys := by
  induction xs with
  | nil => simp [splitChars]
  | cons c cs ih =>
    have hc : c ≠ sep := fun e => h (by simp [e])
    have hcs : sep ∉ cs := fun m => h (List.mem_cons_of_mem _ m)
    simp [splitChars, hc, ih hcs]

theorem splitChars_head (sep : Char) (cs : List Char) :
    (splitChars sep cs).head? = some (cs.takeWhile (fun c => c ≠ sep)) := by
  induction cs with
  | nil => simp [splitChars]
  | cons c cs ih =>
    by_cases hc : c = sep
    · simp [splitChars, hc]
    · simp only [splitChars, hc, if_false]
      split
      · rename_i e
        exact absurd e (splitChars_ne_nil sep cs)
      · rename_i p ps e
        rw [e] at ih
        simp at ih
        simp [List.takeWhile, hc, ih]

theorem index_zero_Split (s : String) (sep : Char) :
    ∃ a, index (Split s sep) 0 = .ok a ∧ (Split s sep).head? = some a := by
  unfold Split index
  have h := splitChars_ne_nil sep s.data
  cases e : splitChars sep s.data with
  | nil => exact absurd e h
  | cons p ps => exact ⟨String.mk p, by simp⟩

theorem Split_of_not_mem (arg : String) (h : '=' ∉ arg.data) : Split arg '=' = [arg] := by
  simp [Split, splitChars_of_not_mem _ _ h]

theorem index_one_Split (arg : String) (h : '=' ∈ arg.data) :
    ∃ x, index (Split arg '=') 1 = .ok x := by
  have hl := splitChars_length_of_mem '=' arg.data h
  unfold Split index
  cases e : splitChars '=' arg.data with
  | nil => rw [e] at hl; simp at hl
  | cons p ps =>
    cases ps with
    | nil => rw [e] at hl; simp at hl
    | cons q qs => exact ⟨String.mk q, by simp⟩

theorem parseOptions_step_bare (arg : String) (rest : List String) (o : Opts)
    (h : bareOption arg) : parseOptions (arg :: rest) o = .panic (.indexOutOfRange 1 1) := by
  obtain ⟨hne, hk⟩ := h
  simp only [parseOptions, Split_of_not_mem arg hne, index, List.get?, Res.bind]
  rcases hk with hk | hk
  · simp [hk]
  · have : TrimSpace arg ≠ "default" := by rw [hk]; decide
    simp [hk, this]

theorem parseOptions_step_ok (arg : String) (rest : List String) (o : Opts)
    (h : ¬ bareOption arg) : ∃ o1, parseOptions (arg :: rest) o = parseOptions rest o1 := by
  by_cases hm : '=' ∈ arg.data
  · obtain ⟨a, ha, _⟩ := index_zero_Split arg '='
    obtain ⟨x, hx⟩ := index_one_Split arg hm
    simp only [parseOptions, ha, hx, Res.bind]
    by_cases h1 : TrimSpace a = "default"
    · exact ⟨{ o with defVal := x, hasDef := true }, by simp [h1]⟩
    · by_cases h2 : TrimSpace a = "format"
      · exact ⟨{ o with format := x }, by simp [h1, h2]⟩
      · exact ⟨o, by simp [h1, h2]⟩
  · have hk : ¬ (TrimSpace arg = "default" ∨ TrimSpace arg = "format") := fun k => h ⟨hm, k⟩
    have h1 : TrimSpace arg ≠ "default" := fun e => hk (Or.inl e)
    have h2 : TrimSpace arg ≠ "format" := fun e => hk (Or.inr e)
    exact ⟨o, by simp [parseOptions, Split_of_not_mem arg hm, index, Res.bind, h1, h2]⟩

theorem parseOptions_ok (args : List String) (o : Opts) (h : ∀ arg ∈ args, ¬ bareOption arg) :
    ∃ o1, parseOptions args o = .ok o1 := by
  induction args generalizing o with
  | nil => exact ⟨o, rfl⟩
  | cons arg rest ih =>
    obtain ⟨o1, h1⟩ := parseOptions_step_ok arg rest o (h arg (by simp))
    obtain ⟨o2, h2⟩ := ih o1 (fun a ha => h a (List.mem_cons_of_mem _ ha))
    exact ⟨o2, by rw [h1, h2]⟩

theorem parseOptions_panic (args : List String) (o : Opts) (h : ∃ arg ∈ args, bareOption arg) :
    parseOptions args o = .panic (.indexOutOfRange 1 1) := by
  induction args generalizing o with
  | nil => simp at h
  | cons arg rest ih =>
    by_cases hb : bareOption arg
    · exact parseOptions_step_bare arg rest o hb
    · obtain ⟨o1, h1⟩ := parseOptions_step_ok arg rest o hb
      rw [h1]
      apply ih
      obtain ⟨a, ha, hba⟩ := h
      rcases List.mem_cons.mp ha with e | m
      · exact absurd (e ▸ hba) hb
      · exact ⟨a, m, hba⟩

theorem options_guard (args : List String) (o : Opts) :
    (if args.length > 1 then parseOptions (args.drop 1) o else .ok o) =
      parseOptions (args.drop 1) o := by
  split
  · rfl
  · rename_i h
    have : args.drop 1 = [] := by
      apply List.drop_eq_nil_of_le
      omega
    rw [this]
    rfl

theorem getFetcher_eq (tag t : String) (ptr : Bool) :
    ∃ a, (Split tag ',').head? = some a ∧
      getFetcher tag t ptr =
        (parseOptions ((Split tag ',').drop 1) ⟨"", "", false⟩).bind
          (typeSwitch (TrimSpace a) ptr t) := by
  obtain ⟨a, ha, hh⟩ := index_zero_Split tag ','
  refine ⟨a, hh, ?_⟩
  unfold getFetcher
  simp only [ha, Res.bind]
  rw [options_guard]
  rfl

theorem typeSwitch_supported (varName : String) (ptr : Bool) (t : String) (o : Opts)
    (ht : supported t) :
    ∃ f, typeSwitch varName ptr t o = .ok f ∧ f.VarName = varName ∧ f.IsPtr = ptr ∧
      f.HasDef = o.hasDef ∧ f.Default = o.defVal := by
  unfold supported at ht
  rcases ht with h | h | h | h | h | h | h <;> subst h <;>
    simp [typeSwitch, Fetcher.VarName, Fetcher.IsPtr, Fetcher.HasDef, Fetcher.Default]

theorem typeSwitch_unsupported (varName : String) (ptr : Bool) (t : String) (o : Opts)
    (ht : ¬ supported t) :
    typeSwitch varName ptr t o =
      .err (.errorf ("confstruct does not (yet) support variables of type: " ++ t)) := by
  simp only [supported, not_or] at ht
  obtain ⟨h1, h2, h3, h4, h5, h6, h7⟩ := ht
  simp only [typeSwitch, h1, h2, h3, h4, h5, h6, h7, if_false]

theorem getFetcher_panic (tag t : String) (ptr : Bool) (h : ¬ WellFormed tag) :
    getFetcher tag t ptr = .panic (.indexOutOfRange 1 1) := by
  obtain ⟨a, _, hg⟩ := getFetcher_eq tag t ptr
  have hp : parseOptions ((Split tag ',').drop 1) ⟨"", "", false⟩ =
      .panic (.indexOutOfRange 1 1) := by
    apply parseOptions_panic
    unfold WellFormed at h
    push_neg at h
    exact h
  rw [hg, hp]
  rfl

theorem getFetcher_unsupported (tag t : String) (ptr : Bool) (h : WellFormed tag)
    (ht : ¬ supported t) :
    getFetcher tag t ptr =
      .err (.errorf ("confstruct does not (yet) support variables of type: " ++ t)) := by
  obtain ⟨a, _, hg⟩ := getFetcher_eq tag t ptr
  obtain ⟨o, ho⟩ := parseOptions_ok ((Split tag ',').drop 1) ⟨"", "", false⟩ h
  rw [hg, ho]
  exact typeSwitch_unsupported _ ptr t o ht

theorem getFetcher_supported (tag t : String) (ptr : Bool) (h : WellFormed tag)
    (ht : supported t) :
    ∃ f a, getFetcher tag t ptr = .ok f ∧ (Split tag ',').head? = some a ∧
      f.VarName = TrimSpace a ∧ f.IsPtr = ptr := by
  obtain ⟨a, hh, hg⟩ := getFetcher_eq tag t ptr
  obtain ⟨o, ho⟩ := parseOptions_ok ((Split tag ',').drop 1) ⟨"", "", false⟩ h
  obtain ⟨f, hf, hv, hp, _, _⟩ := typeSwitch_supported (TrimSpace a) ptr t o ht
  exact ⟨f, a, by rw [hg, ho]; exact hf, hh, hv, hp⟩

/-! ## Lemmas on the field walk -/

theorem TagGet_absent (tag : List (String × String)) (key : String)
    (h : ∀ kv ∈ tag, kv.1 ≠ key) : TagGet tag key = "" := by
  induction tag with
  | nil => rfl
  | cons kv rest ih =>
    have h1 : kv.1 ≠ key := h kv (by simp)
    simp only [TagGet, h1, if_false]
    exact ih (fun x hx => h x (List.mem_cons_of_mem _ hx))

theorem walk_skip {F T U : Type} (S : Std F T U) (fld : Field F T U)
    (rest : List (Field F T U)) (w : World T) (h : skipped fld) :
    populateFields S (fld :: rest) w = (populateFields S rest w).cons fld := by
  unfold skipped at h
  simp only [populateFields, h, if_true]

theorem walk_getFetcher_err {F T U : Type} (S : Std F T U) (fld : Field F T U)
    (rest : List (Field F T U)) (w : World T) (h : ¬ skipped fld) (e : Error)
    (hg : getFetcher (TagGet fld.Tag tagName) (baseName fld) fld.Typ.isPtr = .err e) :
    populateFields S (fld :: rest) w = ⟨.failure e, fld :: rest, w⟩ := by
  unfold skipped at h
  unfold baseName at hg
  simp only [populateFields, h, if_false, hg]

theorem walk_getFetcher_panic {F T U : Type} (S : Std F T U) (fld : Field F T U)
    (rest : List (Field F T U)) (w : World T) (h : ¬ skipped fld) (p : Panic)
    (hg : getFetcher (TagGet fld.Tag tagName) (baseName fld) fld.Typ.isPtr = .panic p) :
    populateFields S (fld :: rest) w = ⟨.panicked p, fld :: rest, w⟩ := by
  unfold skipped at h
  unfold baseName at hg
  simp only [populateFields, h, if_false, hg]

theorem walk_unsettable {F T U : Type} (S : Std F T U) (fld : Field F T U)
    (rest : List (Field F T U)) (w : World T) (h : ¬ skipped fld) (f : Fetcher)
    (hg : getFetcher (TagGet fld.Tag tagName) (baseName fld) fld.Typ.isPtr = .ok f)
    (hs : ¬ (fld.CanAddr = true ∧ fld.CanSet = true)) :
    populateFields S (fld :: rest) w = (populateFields S rest w).cons fld := by
  unfold skipped at h
  unfold baseName at hg
  simp only [populateFields, h, if_false, hg, hs]

theorem walk_fetch_err {F T U : Type} (S : Std F T U) (fld : Field F T U)
    (rest : List (Field F T U)) (w : World T) (h : ¬ skipped fld) (f : Fetcher)
    (hg : getFetcher (TagGet fld.Tag tagName) (baseName fld) fld.Typ.isPtr = .ok f)
    (hs : fld.CanAddr = true ∧ fld.CanSet = true) (e : Error) (w1 : World T)
    (hf : f.Fetch S w = (.error e, w1)) :
    populateFields S (fld :: rest) w = ⟨.failure e, fld :: rest, w1⟩ := by
  unfold skipped at h
  unfold baseName at hg
  simp only [populateFields, h, if_false, hg, hs, hf, and_self, if_true]

theorem walk_fetch_ok {F T U : Type} (S : Std F T U) (fld : Field F T U)
    (rest : List (Field F T U)) (w : World T) (h : ¬ skipped fld) (f : Fetcher)
    (hg : getFetcher (TagGet fld.Tag tagName) (baseName fld) fld.Typ.isPtr = .ok f)
    (hs : fld.CanAddr = true ∧ fld.CanSet = true) (rval : Val F T U) (w1 : World T)
    (hf : f.Fetch S w = (.ok rval, w1)) (ht : rval.typeOf = fld.Typ) :
    populateFields S (fld :: rest) w =
      (populateFields S rest w1).cons (fld.Set rval) := by
  unfold skipped at h
  unfold baseName at hg
  simp only [populateFields, h, if_false, hg, hs, hf, and_self, if_true, ht]

theorem walk_set_panic {F T U : Type} (S : Std F T U) (fld : Field F T U)
    (rest : List (Field F T U)) (w : World T) (h : ¬ skipped fld) (f : Fetcher)
    (hg : getFetcher (TagGet fld.Tag tagName) (baseName fld) fld.Typ.isPtr = .ok f)
    (hs : fld.CanAddr = true ∧ fld.CanSet = true) (rval : Val F T U) (w1 : World T)
    (hf : f.Fetch S w = (.ok rval, w1)) (ht : rval.typeOf ≠ fld.Typ) :
    populateFields S (fld :: rest) w = ⟨.panicked .notAssignable, fld :: rest, w1⟩ := by
  unfold skipped at h
  unfold baseName at hg
  simp only [populateFields, h, if_false, hg, hs, hf, and_self, if_true, ht]

/-- One round of the loop either ends the walk, leaving the field and all later fields as
they are, or goes on with the later fields, uniformly in what those fields are. -/
theorem walk_step {F T U : Type} (S : Std F T U) (fld : Field F T U) (w : World T) :
    (∃ o w1, o ≠ Outcome.success ∧
        ∀ rest, populateFields S (fld :: rest) w = ⟨o, fld :: rest, w1⟩) ∨
      (∃ fld1 w1, ∀ rest, populateFields S (fld :: rest) w =
        (populateFields S rest w1).cons fld1) := by
  by_cases h : skipped fld
  · exact Or.inr ⟨fld, w, fun rest => walk_skip S fld rest w h⟩
  · cases hg : getFetcher (TagGet fld.Tag tagName) (baseName fld) fld.Typ.isPtr with
    | panic p =>
      exact Or.inl ⟨.panicked p, w, by simp,
        fun rest => walk_getFetcher_panic S fld rest w h p hg⟩
    | err e =>
      exact Or.inl ⟨.failure e, w, by simp, fun rest => walk_getFetcher_err S fld rest w h e hg⟩
    | ok f =>
      by_cases hs : fld.CanAddr = true ∧ fld.CanSet = true
      · rcases hf : f.Fetch S w with ⟨r, w1⟩
        cases r with
        | error e =>
          exact Or.inl ⟨.failure e, w1, by simp,
            fun rest => walk_fetch_err S fld rest w h f hg hs e w1 hf⟩
        | ok rval =>
          by_cases ht : rval.typeOf = fld.Typ
          · exact Or.inr ⟨(fld.Set rval), w1,
              fun rest => walk_fetch_ok S fld rest w h f hg hs rval w1 hf ht⟩
          · exact Or.inl ⟨.panicked .notAssignable, w1, by simp,
              fun rest => walk_set_panic S fld rest w h f hg hs rval w1 hf ht⟩
      · exact Or.inr ⟨fld, w, fun rest => walk_unsettable S fld rest w h f hg hs⟩

theorem walk_length {F T U : Type} (S : Std F T U) (fs : List (Field F T U)) (w : World T) :
    (populateFields S fs w).fields.length = fs.length := by
  induction fs generalizing w with
  | nil => rfl
  | cons fld rest ih =>
    rcases walk_step S fld w with ⟨o, w1, _, h⟩ | ⟨fld1, w1, h⟩
    · rw [h rest]
    · rw [h rest]
      simp [Walk.cons, ih w1]

/-- A field whose round does nothing can be taken out of the record without changing
how the walk ends, what it reads, or what it writes to the other fields. -/
theorem walk_insert {F T U : Type} (S : Std F T U) (fld : Field F T U)
    (hn : ∀ rest w, populateFields S (fld :: rest) w = (populateFields S rest w).cons fld)
    (pre post : List (Field F T U)) (w : World T) :
    populateFields S (pre ++ fld :: post) w =
      ⟨(populateFields S (pre ++ post) w).outcome,
        (populateFields S (pre ++ post) w).fields.take pre.length ++
          fld :: (populateFields S (pre ++ post) w).fields.drop pre.length,
        (populateFields S (pre ++ post) w).world⟩ := by
  induction pre generalizing w with
  | nil => simp [hn, Walk.cons]
  | cons x pre ih =>
    rcases walk_step S x w with ⟨o, w1, _, h⟩ | ⟨x1, w1, h⟩
    · simp only [List.cons_append, h, List.length_cons, List.take_succ_cons,
        List.drop_succ_cons, List.take_left', List.drop_left']
    · simp only [List.cons_append, h, Walk.cons, ih w1, List.length_cons,
        List.take_succ_cons, List.drop_succ_cons, List.cons_append]

/-- When the walk over the first fields succeeds, the walk over the whole record is the
walk over the remaining fields from the world reached, with the first fields as written. -/
theorem walk_append {F T U : Type} (S : Std F T U) (pre rest pre1 : List (Field F T U))
    (w w1 : World T) (h : populateFields S pre w = ⟨.success, pre1, w1⟩) :
    populateFields S (pre ++ rest) w =
      ⟨(populateFields S rest w1).outcome, pre1 ++ (populateFields S rest w1).fields,
        (populateFields S rest w1).world⟩ := by
  induction pre generalizing w pre1 with
  | nil =>
    simp only [populateFields, Walk.mk.injEq, true_and] at h
    obtain ⟨h1, h2⟩ := h
    subst h1 h2
    simp
  | cons x pre ih =>
    rcases walk_step S x w with ⟨o, w2, ho, hx⟩ | ⟨x1, w2, hx⟩
    · rw [hx pre] at h
      simp only [Walk.mk.injEq] at h
      exact absurd h.1 ho
    · rw [hx pre] at h
      simp only [Walk.cons, Walk.mk.injEq] at h
      obtain ⟨ho, hf, hw⟩ := h
      have hp : populateFields S pre w2 = ⟨.success, (populateFields S pre w2).fields, w1⟩ := by
        rw [← ho, ← hw]
      rw [List.cons_append, hx (pre ++ rest), ih _ w2 hp]
      simp [Walk.cons, ← hf]

/-! ## The claims -/

theorem not_skipped_mkField {F T U : Type} (name : String) (ty : GoType) (conf : String)
    (zero : Val F T U) (h1 : conf ≠ "") (h2 : conf ≠ "-") :
    ¬ skipped (mkField name ty conf zero) := by
  simp [skipped, mkField, TagGet, tagName, h1, h2]

theorem Getenv_world {T : Type} (w : World T) (name : String) :
    (Getenv w name).2 = { w with reads := w.reads ++ [name] } := rfl

theorem Getenv_value {T : Type} (w : World T) (name : String) :
    (Getenv w name).1 = (w.env name).getD "" := rfl

theorem getFetcher_FIELDA :
    getFetcher "FIELDA,default=foo" "string" false =
      .ok (.string ⟨"FIELDA", false, true, "foo"⟩) := by decide

theorem getFetcher_FIELDB :
    getFetcher "FIELDB,default=10" "int" false = .ok (.int ⟨"FIELDB", false, true, "10"⟩) := by
  decide

theorem getFetcher_FIELDF :
    getFetcher "FIELDF,default=6m2s" "Duration" false =
      .ok (.duration ⟨"FIELDF", false, true, "6m2s"⟩) := by decide

theorem ParseInt_888 : ParseInt "888" = .ok 888 := by decide

/-- A field whose round of the loop does nothing keeps its place and value, and `Populate`
on the record with it ends, reads and writes as on the record without it. -/
theorem populate_noop_field {F T U : Type} (S : Std F T U) (fld : Field F T U)
    (hn : ∀ rest w, populateFields S (fld :: rest) w = (populateFields S rest w).cons fld)
    (pre post : List (Field F T U)) (w : World T) :
    Populate S (.pointer (some (.struct (pre ++ fld :: post)))) w =
      ⟨(populateFields S (pre ++ post) w).outcome,
        .pointer (some (.struct ((populateFields S (pre ++ post) w).fields.take pre.length ++
          fld :: (populateFields S (pre ++ post) w).fields.drop pre.length))),
        (populateFields S (pre ++ post) w).world⟩ ∧
    (populateFields S (pre ++ fld :: post) w).fields.get? pre.length = some fld := by
  have hi := walk_insert S fld hn pre post w
  refine ⟨by simp only [Populate, hi], ?_⟩
  rw [hi]
  have hl := walk_length S (pre ++ post) w
  have hlen : ((populateFields S (pre ++ post) w).fields.take pre.length).length =
      pre.length := by
    rw [List.length_take, hl, List.length_append]
    omega
  simp only
  rw [List.get?_eq_getElem?, List.getElem?_append_right (by omega), hlen]
  simp

/-- C4 (usage guard): for an argument that is not a pointer (in particular a struct passed by
value), for a pointer to a non-struct value and for the nil pointer, `Populate` returns an
error, and both the caller's argument and the world, with its log of environment reads, are
exactly as before the call: no field is processed and no variable is read. -/
theorem C4_usage_guard {F T U : Type} (S : Std F T U) (w : World T) :
    (∀ v : Target F T U, Populate S (.value v) w =
        ⟨.failure (.errorf "argument must be pointer to struct"), .value v, w⟩) ∧
    (∀ v : Val F T U, Populate S (.pointer (some (.nonStruct v))) w =
        ⟨.failure (.errorf "can't populate non-struct type"),
          .pointer (some (.nonStruct v)), w⟩) ∧
    Populate S (.pointer none : Arg F T U) w =
        ⟨.failure (.errorf "can't populate non-struct type"), .pointer none, w⟩ :=
  ⟨fun _ => rfl, fun _ => rfl, rfl⟩

/-- C5 (skip semantics): a field whose `conf` tag is absent, empty or `-` is not changed by
`Populate` and contributes nothing to its result, whatever its type: the call on a record
with the field ends the same way, reads the same variables and writes the same values to the
other fields as the call on the record without it, and the field keeps its place and value;
a record made only of such fields is populated successfully and left unchanged, without any
read. -/
theorem C5_skip_semantics {F T U : Type} (S : Std F T U) (fld : Field F T U)
    (h : skipped fld) :
    (∀ (pre post : List (Field F T U)) (w : World T),
      Populate S (.pointer (some (.struct (pre ++ fld :: post)))) w =
        ⟨(populateFields S (pre ++ post) w).outcome,
          .pointer (some (.struct ((populateFields S (pre ++ post) w).fields.take pre.length ++
            fld :: (populateFields S (pre ++ post) w).fields.drop pre.length))),
          (populateFields S (pre ++ post) w).world⟩ ∧
      (populateFields S (pre ++ fld :: post) w).fields.get? pre.length = some fld) ∧
    (∀ (fs : List (Field F T U)) (w : World T), (∀ f ∈ fs, skipped f) →
      Populate S (.pointer (some (.struct fs))) w =
        ⟨.success, .pointer (some (.struct fs)), w⟩) ∧
    (∀ g : Field F T U, (∀ kv ∈ g.Tag, kv.1 ≠ tagName) → skipped g) := by
  refine ⟨fun pre post w => ?_, fun fs w hfs => ?_, fun g hg => Or.inl (TagGet_absent _ _ hg)⟩
  · exact populate_noop_field S fld (fun rest w => walk_skip S fld rest w h) pre post w
  · have hw : populateFields S fs w = ⟨.success, fs, w⟩ := by
      induction fs with
      | nil => rfl
      | cons f rest ih =>
        rw [walk_skip S f rest w (hfs f (by simp)),
          ih (fun g hg => hfs g (List.mem_cons_of_mem _ hg))]
        rfl
    simp only [Populate, hw]

/-- Witness of C5: the record whose only field is `E Dummy`, tagged `-`. -/
theorem C5_skip_semantics_witness :
    skipped (mkField "E" dummyType "-" (.other dummyType 0) : Field Int String String) ∧
    Populate sampleStd (.pointer (some (.struct
        [mkField "E" dummyType "-" (.other dummyType 0)]))) emptyWorld =
      ⟨.success, .pointer (some (.struct [mkField "E" dummyType "-" (.other dummyType 0)])),
        emptyWorld⟩ :=
  ⟨Or.inr rfl,
    (C5_skip_semantics sampleStd (mkField "E" dummyType "-" (.other dummyType 0))
      (Or.inr rfl)).2.1 _ emptyWorld (by
        intro f hf
        rw [List.mem_singleton.mp hf]
        exact Or.inr rfl)⟩

/-- C2 (env override): for each of the seven fetchers and every world in which `VarName` holds
a non-empty string `s`, `Fetch` returns the conversion of `s`, behind a pointer for a pointer
field, whatever `HasDef` and `Default` are; and on the record `A string` (default `foo`),
`B int` (default `10`) with `FIELDB=888` and `FIELDA` unset or empty, `Populate` succeeds and
leaves `"foo"` and `888` in the fields. -/
theorem C2_env_override {F T U : Type} (S : Std F T U) :
    (∀ (f : Fetcher) (w : World T) (s : String), w.env f.VarName = some s → s ≠ "" →
      f.Fetch S w = deliver f.IsPtr (convert S f.kind f.Format s (Getenv w f.VarName).2)) ∧
    (∀ w : World T, (Getenv w "FIELDA").1 = "" → w.env "FIELDB" = some "888" →
      Populate S (.pointer (some (.struct overrideRecord))) w =
        ⟨.success,
          .pointer (some (.struct
            [ mkField "A" (.named "" "string") "FIELDA,default=foo" (.str "foo"),
              mkField "B" (.named "" "int") "FIELDB,default=10" (.int 888) ])),
          { w with reads := w.reads ++ ["FIELDA", "FIELDB"] }⟩) := by
  refine ⟨?_, ?_⟩
  · intro f w s hs hne
    rw [Fetch_eq_convert, effective, Getenv_value, hs]
    simp [hne]
  · intro w hA hB
    rw [Getenv_value] at hA
    have e1 : (Fetcher.string ⟨"FIELDA", false, true, "foo"⟩).Fetch S w =
        (.ok (.str "foo"), { w with reads := w.reads ++ ["FIELDA"] }) := by
      simp [Fetcher.Fetch, StringFetcher.Fetch, Getenv, hA]
    have e2 : (Fetcher.int ⟨"FIELDB", false, true, "10"⟩).Fetch S
        { w with reads := w.reads ++ ["FIELDA"] } =
        (.ok (.int 888), { w with reads := w.reads ++ ["FIELDA", "FIELDB"] }) := by
      simp [Fetcher.Fetch, IntFetcher.Fetch, Getenv, hB, ParseInt_888]
    have s1 := walk_fetch_ok S
      (mkField "A" (.named "" "string") "FIELDA,default=foo" (.str ""))
      [mkField "B" (.named "" "int") "FIELDB,default=10" (.int 0)]
      w (not_skipped_mkField _ _ _ _ (by decide) (by decide)) _ getFetcher_FIELDA ⟨rfl, rfl⟩
      _ _ e1 rfl
    have s2 := walk_fetch_ok S
      (mkField "B" (.named "" "int") "FIELDB,default=10" (.int 0))
      [] _ (not_skipped_mkField _ _ _ _ (by decide) (by decide)) _ getFetcher_FIELDB ⟨rfl, rfl⟩
      _ _ e2 rfl
    simp only [Populate, overrideRecord]
    rw [s1, s2]
    rfl

/-- Witness of C2: the fetcher of an `int` field with default `10` when `FIELDB=888`. -/
theorem C2_env_override_witness :
    (emptyWorld.setenv "FIELDB" "888").env "FIELDB" = some "888" ∧ "888" ≠ "" ∧
    (Fetcher.int ⟨"FIELDB", false, true, "10"⟩).Fetch sampleStd
        (emptyWorld.setenv "FIELDB" "888") =
      (.ok (.int 888), { emptyWorld.setenv "FIELDB" "888" with reads := ["FIELDB"] }) :=
  ⟨rfl, by decide,
    ((C2_env_override sampleStd).1 (.int ⟨"FIELDB", false, true, "10"⟩)
      (emptyWorld.setenv "FIELDB" "888") "888" rfl (by decide)).trans rfl⟩

theorem typeSwitch_ptr (varName t : String) (o : Opts) (b c : Bool) (f : Fetcher)
    (h : typeSwitch varName b t o = .ok f) :
    ∃ g, typeSwitch varName c t o = .ok g ∧ sameButPtr f g ∧ f.IsPtr = b ∧ g.IsPtr = c := by
  by_cases ht : supported t
  · unfold supported at ht
    rcases ht with e | e | e | e | e | e | e <;> subst e <;>
      simp only [typeSwitch, String.reduceEq, if_true, if_false, Res.ok.injEq] at h ⊢ <;>
      subst h <;>
      exact ⟨_, rfl, ⟨rfl, rfl, rfl, rfl, rfl⟩, rfl, rfl⟩
  · rw [typeSwitch_unsupported _ _ _ _ ht] at h
    cases h

theorem getFetcher_ptr (tag t : String) (b c : Bool) (f : Fetcher)
    (h : getFetcher tag t b = .ok f) :
    ∃ g, getFetcher tag t c = .ok g ∧ sameButPtr f g ∧ f.IsPtr = b ∧ g.IsPtr = c := by
  obtain ⟨a, ha, hb⟩ := getFetcher_eq tag t b
  obtain ⟨a1, ha1, hc⟩ := getFetcher_eq tag t c
  have : a1 = a := by
    rw [ha] at ha1
    exact (Option.some.inj ha1).symm
  subst this
  rw [hb] at h
  rw [hc]
  cases ho : parseOptions ((Split tag ',').drop 1) ⟨"", "", false⟩ with
  | ok o =>
    rw [ho] at h
    exact typeSwitch_ptr _ t o b c f h
  | err e => rw [ho] at h; cases h
  | panic p => rw [ho] at h; cases h

theorem Fetch_sameButPtr {F T U : Type} (S : Std F T U) (f g : Fetcher) (w : World T)
    (h : sameButPtr f g) (hf : f.IsPtr = false) (hg : g.IsPtr = true) :
    (∀ e, (g.Fetch S w).1 = .error e ↔ (f.Fetch S w).1 = .error e) ∧
    (∀ v, (f.Fetch S w).1 = .ok v → (g.Fetch S w).1 = .ok (.ptr v)) ∧
    (g.Fetch S w).2 = (f.Fetch S w).2 := by
  obtain ⟨hk, hv, hd, hdf, hfm⟩ := h
  rw [Fetch_eq_convert S f w, Fetch_eq_convert S g w]
  simp only [effective, hf, hg, ← hk, ← hv, ← hd, ← hdf, ← hfm]
  rcases convert S f.kind f.Format
      (if (Getenv w f.VarName).1 = "" ∧ f.HasDef = true then f.Default
        else (Getenv w f.VarName).1) (Getenv w f.VarName).2 with ⟨r, w1⟩
  cases r <;> simp [deliver]

/-- C6 (optional-field wrapping): for every tag, type name and world, `getFetcher` builds a
fetcher with `ptr = true` exactly when it builds one with `ptr = false`; started from the same
world, the pointer variant fails exactly when the other fails, with the same error, and when the
other returns `v` the pointer variant returns a non-nil pointer to `v`; both leave the same
world. Since the clock is part of the world, this covers `random` and `now` as well. -/
theorem C6_optional_wrapping {F T U : Type} (S : Std F T U) (tag t : String) (w : World T) :
    (∀ f, getFetcher tag t false = .ok f →
      ∃ fp, getFetcher tag t true = .ok fp ∧
        (∀ e, (fp.Fetch S w).1 = .error e ↔ (f.Fetch S w).1 = .error e) ∧
        (∀ v, (f.Fetch S w).1 = .ok v → (fp.Fetch S w).1 = .ok (.ptr v)) ∧
        (fp.Fetch S w).2 = (f.Fetch S w).2) ∧
    (∀ fp, getFetcher tag t true = .ok fp →
      ∃ f, getFetcher tag t false = .ok f ∧
        (∀ e, (fp.Fetch S w).1 = .error e ↔ (f.Fetch S w).1 = .error e) ∧
        (∀ v, (f.Fetch S w).1 = .ok v → (fp.Fetch S w).1 = .ok (.ptr v)) ∧
        (fp.Fetch S w).2 = (f.Fetch S w).2) := by
  constructor
  · intro f hf
    obtain ⟨g, hg, hs, h1, h2⟩ := getFetcher_ptr tag t false true f hf
    exact ⟨g, hg, Fetch_sameButPtr S f g w hs h1 h2⟩
  · intro fp hfp
    obtain ⟨g, hg, hs, h1, h2⟩ := getFetcher_ptr tag t true false fp hfp
    obtain ⟨hk, hv, hd, hdf, hfm⟩ := hs
    exact ⟨g, hg, Fetch_sameButPtr S g fp w ⟨hk.symm, hv.symm, hd.symm, hdf.symm, hfm.symm⟩
      h2 h1⟩

/-- Witness of C6: the tag of field `F` of the tests, for `Duration` and `*Duration`. -/
theorem C6_optional_wrapping_witness :
    getFetcher "FIELDF,default=6m2s" "Duration" false =
      .ok (.duration ⟨"FIELDF", false, true, "6m2s"⟩) ∧
    ∃ fp, getFetcher "FIELDF,default=6m2s" "Duration" true = .ok fp ∧
      (fp.Fetch sampleStd emptyWorld).1 = .ok (.ptr (.duration (362 * 1000000000))) := by
  refine ⟨getFetcher_FIELDF, ?_⟩
  obtain ⟨fp, h1, _, h3, _⟩ :=
    (C6_optional_wrapping sampleStd "FIELDF,default=6m2s" "Duration" emptyWorld).1 _
      getFetcher_FIELDF
  exact ⟨fp, h1, h3 _ rfl⟩

/-- Counterexample to C3 as stated: the record contains the field `E` with a non-skip tag and
the unsupported type name `Dummy`, yet in the empty environment `Populate` returns the parse
error of the earlier field `B`, not an error naming `Dummy`. -/
theorem C3_counterexample :
    ¬ skipped (mkField "E" dummyType "FIELDE" (.other dummyType 0) : Field Int String String) ∧
    ¬ supported (baseName
      (mkField "E" dummyType "FIELDE" (.other dummyType 0) : Field Int String String)) ∧
    (Populate sampleStd (.pointer (some (.struct earlyFailRecord))) emptyWorld).outcome =
      .failure (.syntaxError "ParseInt" "") ∧
    (Populate sampleStd (.pointer (some (.struct earlyFailRecord))) emptyWorld).outcome ≠
      .failure (.errorf ("confstruct does not (yet) support variables of type: " ++ "Dummy")) := by
  decide

/-- C3 amended (unsupported-type abort without rollback): when the walk over the earlier
fields succeeds, and the next field has a non-skip tag without a bare `default` or `format`
token and a base type name that is none of the seven supported names, `Populate` returns the
error naming that type; the earlier fields hold the values written for them, the offending
field and every later field are as before the call, and nothing is read for them: the world
is the one reached after the earlier fields. -/
theorem C3_unsupported_abort {F T U : Type} (S : Std F T U)
    (pre post pre1 : List (Field F T U)) (fld : Field F T U) (w w1 : World T)
    (hpre : populateFields S pre w = ⟨.success, pre1, w1⟩)
    (hns : ¬ skipped fld) (hty : ¬ supported (baseName fld))
    (hwf : WellFormed (TagGet fld.Tag tagName)) :
    Populate S (.pointer (some (.struct (pre ++ fld :: post)))) w =
      ⟨.failure (.errorf
          ("confstruct does not (yet) support variables of type: " ++ baseName fld)),
        .pointer (some (.struct (pre1 ++ fld :: post))), w1⟩ ∧
    pre1.length = pre.length := by
  have hg := getFetcher_unsupported (TagGet fld.Tag tagName) (baseName fld) fld.Typ.isPtr
    hwf hty
  have hstep := walk_getFetcher_err S fld post w1 hns _ hg
  have hl := walk_length S pre w
  rw [hpre] at hl
  refine ⟨?_, hl⟩
  simp only [Populate, walk_append S pre (fld :: post) pre1 w w1 hpre, hstep]

/-- Witness of C3 amended: `A string` with default `foo`, then `E Dummy`, in the empty
environment: the error names `Dummy`, `A` holds `"foo"`, `E` is untouched. -/
theorem C3_unsupported_abort_witness :
    Populate sampleStd (.pointer (some (.struct
        [ mkField "A" (.named "" "string") "FIELDA,default=foo" (.str ""),
          mkField "E" dummyType "FIELDE" (.other dummyType 0) ]))) emptyWorld =
      ⟨.failure (.errorf "confstruct does not (yet) support variables of type: Dummy"),
        .pointer (some (.struct
          [ mkField "A" (.named "" "string") "FIELDA,default=foo" (.str "foo"),
            mkField "E" dummyType "FIELDE" (.other dummyType 0) ])),
        { emptyWorld with reads := ["FIELDA"] }⟩ :=
  (C3_unsupported_abort sampleStd
    [mkField "A" (.named "" "string") "FIELDA,default=foo" (.str "")] []
    [mkField "A" (.named "" "string") "FIELDA,default=foo" (.str "foo")]
    (mkField "E" dummyType "FIELDE" (.other dummyType 0)) emptyWorld
    { emptyWorld with reads := ["FIELDA"] } rfl (by decide) (by decide) (by decide)).1

/-- Counterexample to C8 as stated: the only field of the record is not settable and has a
non-skip tag, yet `Populate` returns an error, because its type has no fetcher. -/
theorem C8_counterexample :
    ¬ skipped unexportedDummy ∧
    ¬ (unexportedDummy.CanAddr = true ∧ unexportedDummy.CanSet = true) ∧
    (Populate sampleStd (.pointer (some (.struct [unexportedDummy]))) emptyWorld).outcome =
      .failure (.errorf "confstruct does not (yet) support variables of type: Dummy") := by
  decide

/-- C8 amended (unsettable fields are skipped silently): a field that is not settable, with a
non-skip tag without a bare `default` or `format` token and with one of the seven supported base
type names, is left unchanged by `Populate` and contributes nothing to its result, whatever its
environment variable holds: the call on a record with the field ends the same way, reads the
same variables and writes the same values to the other fields as the call on the record without
it, so the walk goes on with the following fields. -/
theorem C8_unsettable_skipped {F T U : Type} (S : Std F T U) (fld : Field F T U)
    (hns : ¬ skipped fld) (hs : ¬ (fld.CanAddr = true ∧ fld.CanSet = true))
    (hty : supported (baseName fld)) (hwf : WellFormed (TagGet fld.Tag tagName))
    (pre post : List (Field F T U)) (w : World T) :
    Populate S (.pointer (some (.struct (pre ++ fld :: post)))) w =
      ⟨(populateFields S (pre ++ post) w).outcome,
        .pointer (some (.struct ((populateFields S (pre ++ post) w).fields.take pre.length ++
          fld :: (populateFields S (pre ++ post) w).fields.drop pre.length))),
        (populateFields S (pre ++ post) w).world⟩ ∧
    (populateFields S (pre ++ fld :: post) w).fields.get? pre.length = some fld := by
  obtain ⟨f, _, hg, _⟩ :=
    getFetcher_supported (TagGet fld.Tag tagName) (baseName fld) fld.Typ.isPtr hwf hty
  exact populate_noop_field S fld
    (fun rest w0 => walk_unsettable S fld rest w0 hns f hg hs) pre post w

/-- Witness of C8 amended: an unexported `int` field whose variable holds `oops`. -/
theorem C8_unsettable_skipped_witness :
    Populate sampleStd (.pointer (some (.struct [unexportedInt])))
        (emptyWorld.setenv "FIELDB" "oops") =
      ⟨.success, .pointer (some (.struct [unexportedInt])),
        emptyWorld.setenv "FIELDB" "oops"⟩ :=
  (C8_unsettable_skipped sampleStd unexportedInt
    (by decide) (by decide) (by decide) (by decide) [] []
    (emptyWorld.setenv "FIELDB" "oops")).1

theorem ParseInt_empty : ParseInt "" = .error (.syntaxError "ParseInt" "") := by decide

theorem ParseBool_empty : ParseBool "" = .error (.syntaxError "ParseBool" "") := by decide

theorem ParseDuration_empty {F T U : Type} (S : Std F T U) :
    ParseDuration S "" = .error (.invalidDuration "") := rfl

theorem ParseFloat_empty {F T U : Type} (S : Std F T U) :
    ParseFloat S "" = .error (.syntaxError "ParseFloat" "") := rfl

theorem parseOptions_hasDef (args : List String) (o o1 : Opts)
    (h : ∀ arg ∈ args, optionKey arg ≠ "default") (hp : parseOptions args o = .ok o1) :
    o1.hasDef = o.hasDef := by
  induction args generalizing o with
  | nil =>
    simp only [parseOptions, Res.ok.injEq] at hp
    rw [hp]
  | cons arg rest ih =>
    have hk := h arg (by simp)
    have hrest : ∀ x ∈ rest, optionKey x ≠ "default" :=
      fun x hx => h x (List.mem_cons_of_mem _ hx)
    obtain ⟨a, ha, hh⟩ := index_zero_Split arg '='
    have hkey : optionKey arg = TrimSpace a := by simp [optionKey, hh]
    rw [hkey] at hk
    simp only [parseOptions, ha, Res.bind, hk, if_false] at hp
    by_cases h2 : TrimSpace a = "format"
    · simp only [h2, if_true] at hp
      cases hx : index (Split arg '=') 1 with
      | ok x =>
        rw [hx] at hp
        exact ih { o with format := x } hrest hp
      | err e => rw [hx] at hp; cases hp
      | panic p => rw [hx] at hp; cases hp
    · simp only [h2, if_false] at hp
      exact ih o hrest hp

theorem typeSwitch_kind (varName : String) (ptr : Bool) (t : String) (o : Opts) (k : Kind)
    (hk : kindOfName t = some k) :
    ∃ f, typeSwitch varName ptr t o = .ok f ∧ f.kind = k ∧ f.VarName = varName ∧
      f.IsPtr = ptr ∧ f.HasDef = o.hasDef := by
  unfold kindOfName at hk
  by_cases h1 : t = "string"
  · subst h1; simp at hk; subst hk
    simp [typeSwitch, Fetcher.kind, Fetcher.VarName, Fetcher.IsPtr, Fetcher.HasDef]
  by_cases h2 : t = "int"
  · subst h2; simp at hk; subst hk
    simp [typeSwitch, Fetcher.kind, Fetcher.VarName, Fetcher.IsPtr, Fetcher.HasDef]
  by_cases h3 : t = "bool"
  · subst h3; simp at hk; subst hk
    simp [typeSwitch, Fetcher.kind, Fetcher.VarName, Fetcher.IsPtr, Fetcher.HasDef]
  by_cases h4 : t = "float64"
  · subst h4; simp at hk; subst hk
    simp [typeSwitch, Fetcher.kind, Fetcher.VarName, Fetcher.IsPtr, Fetcher.HasDef]
  by_cases h5 : t = "Time"
  · subst h5; simp at hk; subst hk
    simp [typeSwitch, Fetcher.kind, Fetcher.VarName, Fetcher.IsPtr, Fetcher.HasDef]
  by_cases h6 : t = "Duration"
  · subst h6; simp at hk; subst hk
    simp [typeSwitch, Fetcher.kind, Fetcher.VarName, Fetcher.IsPtr, Fetcher.HasDef]
  by_cases h7 : t = "URL"
  · subst h7; simp at hk; subst hk
    simp [typeSwitch, Fetcher.kind, Fetcher.VarName, Fetcher.IsPtr, Fetcher.HasDef]
  simp [h1, h2, h3, h4, h5, h6, h7] at hk

/-- From the tag to the fetcher: for a tag without a bare `default` or `format` token and
without an option token of key `default`, `getFetcher` builds a fetcher of the kind the type
name selects, for the trimmed first token, with `HasDef` false. -/
theorem getFetcher_no_default (tag t : String) (ptr : Bool) (k : Kind)
    (hwf : WellFormed tag) (hnd : ¬ declaresDefault tag) (hk : kindOfName t = some k) :
    ∃ f, getFetcher tag t ptr = .ok f ∧ f.kind = k ∧ f.VarName = varNameOf tag ∧
      f.IsPtr = ptr ∧ f.HasDef = false := by
  obtain ⟨a, hh, hg⟩ := getFetcher_eq tag t ptr
  obtain ⟨o, ho⟩ := parseOptions_ok ((Split tag ',').drop 1) ⟨"", "", false⟩ hwf
  have hd : o.hasDef = false := by
    apply parseOptions_hasDef _ _ _ _ ho
    intro arg harg e
    exact hnd ⟨arg, harg, e⟩
  obtain ⟨f, hf, h1, h2, h3, h4⟩ := typeSwitch_kind (TrimSpace a) ptr t o k hk
  refine ⟨f, by rw [hg, ho]; exact hf, h1, ?_, h3, by rw [h4, hd]⟩
  rw [h2]
  simp [varNameOf, hh]

/-- What `Fetch` returns for a fetcher without default whose variable reads as empty: the
error of the empty string for the four parsed types, the empty string for `string`. -/
theorem Fetch_empty_no_default {F T U : Type} (S : Std F T U) (f : Fetcher) (w : World T)
    (hval : (Getenv w f.VarName).1 = "") (hdef : f.HasDef = false) :
    (∀ e, emptyError f.kind = some e → f.Fetch S w = (.error e, (Getenv w f.VarName).2)) ∧
    (f.kind = .string →
      f.Fetch S w =
        (.ok (if f.IsPtr then .ptr (.str "") else .str ""), (Getenv w f.VarName).2)) := by
  have hfe : f.Fetch S w =
      deliver f.IsPtr (convert S f.kind f.Format "" (Getenv w f.VarName).2) := by
    rw [Fetch_eq_convert, effective, hval, hdef]
    simp
  refine ⟨?_, ?_⟩
  · intro e he
    have hr : ("" : String) ≠ "random" := by decide
    rw [hfe]
    cases hk : f.kind <;> rw [hk] at he <;>
      simp only [emptyError, Option.some.injEq, reduceCtorEq] at he <;> subst he <;>
      simp only [convert, ParseInt_empty, ParseBool_empty, ParseDuration_empty,
        ParseFloat_empty, hr, if_false, deliver]
  · intro hk
    rw [hfe, hk]
    rfl

/-- Counterexample to C10 as stated. In the empty environment, on `B int`, `H bool` without
defaults the `Fetch` of `H` would fail with the `ParseBool` error, yet `Populate` returns the
`ParseInt` error of `B`; and on `A string`, `B int` without defaults `Populate` does not
succeed although `A` is a string field: it writes `""` into `A` and fails on `B`. -/
theorem C10_counterexample :
    (Fetcher.bool ⟨"FIELDH", false, false, ""⟩).Fetch sampleStd emptyWorld =
      (.error (.syntaxError "ParseBool" ""), { emptyWorld with reads := ["FIELDH"] }) ∧
    (Populate sampleStd (.pointer (some (.struct twoScalarsRecord))) emptyWorld).outcome =
      .failure (.syntaxError "ParseInt" "") ∧
    (Populate sampleStd (.pointer (some (.struct twoScalarsRecord))) emptyWorld).outcome ≠
      .failure (.syntaxError "ParseBool" "") ∧
    (Populate sampleStd (.pointer (some (.struct stringThenIntRecord))) emptyWorld).outcome ≠
      .success ∧
    Populate sampleStd (.pointer (some (.struct stringThenIntRecord))) emptyWorld =
      ⟨.failure (.syntaxError "ParseInt" ""),
        .pointer (some (.struct
          [ mkField "A" (.named "" "string") "FIELDA" (.str ""),
            mkField "B" (.named "" "int") "FIELDB" (.int 0) ])),
        { emptyWorld with reads := ["FIELDA", "FIELDB"] }⟩ :=
  ⟨rfl, by decide, by decide, by decide, rfl⟩

/-- C10 amended (missing variable without default): let the walk of `Populate` over the
earlier fields succeed, and let the next field be settable, with a non-skip tag that has no
bare `default` or `format` token and no option of key `default`, and with a variable that reads
as the empty string. If its base type name is `int`, `bool`, `float64` or `Duration`, the
fetcher built from the tag has no default, its `Fetch` fails with the error of the empty string,
`Populate` returns that error, and the field and all later fields are as before the call. If
the field is of type `string` or `*string`, the empty string (behind a pointer for `*string`)
is stored in the field, the walk goes on with the later fields, and `Populate` succeeds when
the field is the last one. -/
theorem C10_missing_variable {F T U : Type} (S : Std F T U)
    (pre post pre1 : List (Field F T U)) (fld : Field F T U) (w0 w : World T)
    (hpre : populateFields S pre w0 = ⟨.success, pre1, w⟩)
    (hns : ¬ skipped fld) (hs : fld.CanAddr = true ∧ fld.CanSet = true)
    (hwf : WellFormed (TagGet fld.Tag tagName))
    (hnd : ¬ declaresDefault (TagGet fld.Tag tagName))
    (hval : (Getenv w (varNameOf (TagGet fld.Tag tagName))).1 = "") :
    (∀ k e, kindOfName (baseName fld) = some k → emptyError k = some e →
      (∃ f, getFetcher (TagGet fld.Tag tagName) (baseName fld) fld.Typ.isPtr = .ok f ∧
        f.HasDef = false ∧
        f.Fetch S w =
          (.error e, { w with reads := w.reads ++ [varNameOf (TagGet fld.Tag tagName)] })) ∧
      Populate S (.pointer (some (.struct (pre ++ fld :: post)))) w0 =
        ⟨.failure e, .pointer (some (.struct (pre1 ++ fld :: post))),
          { w with reads := w.reads ++ [varNameOf (TagGet fld.Tag tagName)] }⟩) ∧
    (fld.Typ = .named "" "string" ∨ fld.Typ = .ptr (.named "" "string") →
      Populate S (.pointer (some (.struct (pre ++ fld :: post)))) w0 =
        ⟨(populateFields S post
            { w with reads := w.reads ++ [varNameOf (TagGet fld.Tag tagName)] }).outcome,
          .pointer (some (.struct
            (pre1 ++
              (⟨fld.Name, fld.Typ, fld.Tag, fld.CanAddr, fld.CanSet,
                if fld.Typ.isPtr then .ptr (.str "") else .str ""⟩ : Field F T U) ::
              (populateFields S post
                { w with reads := w.reads ++ [varNameOf (TagGet fld.Tag tagName)] }).fields))),
          (populateFields S post
            { w with reads := w.reads ++ [varNameOf (TagGet fld.Tag tagName)] }).world⟩ ∧
      Populate S (.pointer (some (.struct (pre ++ [fld])))) w0 =
        ⟨.success,
          .pointer (some (.struct
            (pre1 ++
              [(⟨fld.Name, fld.Typ, fld.Tag, fld.CanAddr, fld.CanSet,
                if fld.Typ.isPtr then .ptr (.str "") else .str ""⟩ : Field F T U)]))),
          { w with reads := w.reads ++ [varNameOf (TagGet fld.Tag tagName)] }⟩) := by
  refine ⟨?_, ?_⟩
  · intro k e hk he
    obtain ⟨f, hg, hfk, hv, _, hd⟩ :=
      getFetcher_no_default (TagGet fld.Tag tagName) (baseName fld) fld.Typ.isPtr k hwf hnd hk
    rw [← hv] at hval
    have hf := (Fetch_empty_no_default S f w hval hd).1 e (by rw [hfk]; exact he)
    rw [Getenv_world, hv] at hf
    have hstep := walk_fetch_err S fld post w hns f hg hs e _ hf
    refine ⟨⟨f, hg, hd, hf⟩, ?_⟩
    simp only [Populate, walk_append S pre (fld :: post) pre1 w0 w hpre, hstep]
  · intro hty
    have hb : kindOfName (baseName fld) = some .string := by
      rcases hty with h | h <;> rw [baseName, h] <;> rfl
    obtain ⟨f, hg, hfk, hv, hp, hd⟩ :=
      getFetcher_no_default (TagGet fld.Tag tagName) (baseName fld) fld.Typ.isPtr .string
        hwf hnd hb
    rw [← hv] at hval
    have hf := (Fetch_empty_no_default S f w hval hd).2 hfk
    rw [Getenv_world, hv, hp] at hf
    have ht : (if fld.Typ.isPtr = true then (Val.ptr (.str "") : Val F T U)
        else .str "").typeOf = fld.Typ := by
      rcases hty with h | h <;> rw [h] <;> rfl
    have hstep := fun rest => walk_fetch_ok S fld rest w hns f hg hs _ _ hf ht
    refine ⟨?_, ?_⟩
    · simp only [Populate, walk_append S pre (fld :: post) pre1 w0 w hpre, hstep, Walk.cons,
        Field.Set]
    · have hnil : populateFields S []
          { w with reads := w.reads ++ [varNameOf (TagGet fld.Tag tagName)] } =
          ⟨.success, [], { w with reads := w.reads ++ [varNameOf (TagGet fld.Tag tagName)] }⟩ :=
        rfl
      simp only [Populate, walk_append S pre [fld] pre1 w0 w hpre, hstep [], hnil, Walk.cons,
        Field.Set]

/-- Witness of C10 amended, on `Populate` in the empty environment: after `A string` with
default `foo`, the field `H bool` without default makes `Populate` return the `ParseBool`
error with `H` unwritten; and the single field `A string` without default, holding `"old"`,
is overwritten with the empty string. -/
theorem C10_missing_variable_witness :
    Populate sampleStd (.pointer (some (.struct
        [ mkField "A" (.named "" "string") "FIELDA,default=foo" (.str ""),
          mkField "H" (.named "" "bool") "FIELDH" (.bool true) ]))) emptyWorld =
      ⟨.failure (.syntaxError "ParseBool" ""),
        .pointer (some (.struct
          [ mkField "A" (.named "" "string") "FIELDA,default=foo" (.str "foo"),
            mkField "H" (.named "" "bool") "FIELDH" (.bool true) ])),
        { emptyWorld with reads := ["FIELDA", "FIELDH"] }⟩ ∧
    Populate sampleStd (.pointer (some (.struct
        [mkField "A" (.named "" "string") "FIELDA" (.str "old")]))) emptyWorld =
      ⟨.success,
        .pointer (some (.struct [mkField "A" (.named "" "string") "FIELDA" (.str "")])),
        { emptyWorld with reads := ["FIELDA"] }⟩ :=
  ⟨((C10_missing_variable sampleStd
      [mkField "A" (.named "" "string") "FIELDA,default=foo" (.str "")] []
      [mkField "A" (.named "" "string") "FIELDA,default=foo" (.str "foo")]
      (mkField "H" (.named "" "bool") "FIELDH" (.bool true)) emptyWorld
      { emptyWorld with reads := ["FIELDA"] } rfl (by decide) ⟨rfl, rfl⟩ (by decide)
      (by decide) rfl).1 .bool _ rfl rfl).2,
    ((C10_missing_variable sampleStd [] [] []
      (mkField "A" (.named "" "string") "FIELDA" (.str "old")) emptyWorld emptyWorld
      rfl (by decide) ⟨rfl, rfl⟩ (by decide) (by decide) rfl).2 (Or.inl rfl)).2⟩

/-- What `getFetcher` makes of the tag `<name>,default=<L>` for a comma-free name and a
comma-free literal: the default is the part of `L` before its first `=`, which is `L` itself
exactly when `L` contains no `=`. -/
theorem getFetcher_default_literal (name L t : String) (ptr : Bool)
    (hn : ',' ∉ name.data) (hL : ',' ∉ L.data) (ht : supported t) :
    ∃ f, getFetcher (name ++ ",default=" ++ L) t ptr = .ok f ∧ f.VarName = TrimSpace name ∧
      f.IsPtr = ptr ∧ f.HasDef = true ∧
      f.Default = String.mk (L.data.takeWhile (fun c => c ≠ '=')) ∧
      ('=' ∉ L.data → f.Default = L) := by
  have hdata : (name ++ ",default=" ++ L).data =
      name.data ++ ',' :: ("default".data ++ '=' :: L.data) := by
    simp [String.data_append]
  have hrest : ',' ∉ "default".data ++ '=' :: L.data := by
    intro hm
    rcases List.mem_append.mp hm with h1 | h1
    · revert h1
      decide
    · rcases List.mem_cons.mp h1 with h2 | h2
      · revert h2
        decide
      · exact hL h2
  have hsplit : Split (name ++ ",default=" ++ L) ',' =
      [name, String.mk ("default".data ++ '=' :: L.data)] := by
    simp only [Split, hdata, splitChars_append_sep _ _ _ hn, splitChars_of_not_mem _ _ hrest,
      List.map]
  have hparts : Split (String.mk ("default".data ++ '=' :: L.data)) '=' =
      "default" :: (splitChars '=' L.data).map String.mk := by
    simp only [Split, splitChars_append_sep '=' "default".data L.data (by decide), List.map]
  have hhead := splitChars_head '=' L.data
  obtain ⟨p, ps, hp⟩ : ∃ p ps, splitChars '=' L.data = p :: ps := by
    cases e : splitChars '=' L.data with
    | nil => exact absurd e (splitChars_ne_nil _ _)
    | cons p ps => exact ⟨p, ps, rfl⟩
  rw [hp] at hhead
  simp only [List.head?_cons, Option.some.injEq] at hhead
  have hopts : parseOptions [String.mk ("default".data ++ '=' :: L.data)] ⟨"", "", false⟩ =
      .ok ⟨String.mk (L.data.takeWhile (fun c => c ≠ '=')), "", true⟩ := by
    have ht : TrimSpace "default" = "default" := by decide
    simp only [parseOptions, hparts, hp, index, List.get?, List.map, Res.bind, ht, if_true,
      hhead]
  obtain ⟨a, ha, hg⟩ := getFetcher_eq (name ++ ",default=" ++ L) t ptr
  rw [hsplit] at ha hg
  simp only [List.head?_cons, Option.some.injEq] at ha
  subst ha
  simp only [List.drop_succ_cons, List.drop_zero, hopts, Res.bind] at hg
  obtain ⟨f, hf, hv, hpt, hd, hdf⟩ := typeSwitch_supported (TrimSpace name) ptr t
    ⟨String.mk (L.data.takeWhile (fun c => c ≠ '=')), "", true⟩ ht
  refine ⟨f, by rw [hg, hf], hv, hpt, hd, hdf, fun hne => ?_⟩
  rw [hdf]
  have : L.data.takeWhile (fun c => decide (c ≠ '=')) = L.data := by
    apply List.takeWhile_eq_self_iff.mpr
    intro c hc
    simp only [ne_eq, decide_not, Bool.not_eq_true', decide_eq_false_iff_not]
    exact fun e => hne (e ▸ hc)
  rw [this]

/-- C7, the code at a default that contains `=`: for the tag `URL,default=http://h/?a=b`
`getFetcher` yields a fetcher with `HasDef` set whose `Default` is `http://h/?a`, the literal
cut at its first `=`, and not the literal `http://h/?a=b`. -/
theorem C7_default_with_equals :
    getFetcher "URL,default=http://h/?a=b" "URL" false =
      .ok (.url ⟨"URL", false, true, "http://h/?a"⟩) ∧
    "http://h/?a" ≠ "http://h/?a=b" := by
  decide

/-- C9, the code at an option token without `=`: for the tags `FIELDA,default` and
`FIELDA,format` `getFetcher` indexes `argParts[1]` in a slice of length one and panics,
whatever the type name and the pointer flag. -/
theorem C9_bare_option_panics (t : String) (ptr : Bool) :
    getFetcher "FIELDA,default" t ptr = .panic (.indexOutOfRange 1 1) ∧
    getFetcher "FIELDA,format" t ptr = .panic (.indexOutOfRange 1 1) :=
  ⟨getFetcher_panic _ t ptr (by decide), getFetcher_panic _ t ptr (by decide)⟩

end Confstruct
